import Mathlib

/-!
Verification development for the wayland-info-rs diagnostic client.

The Rust sources (src/main.rs and its modular split src/app.rs, src/output.rs,
src/protocols/\*.rs) are shallowly embedded below: the application state
`AppData` and its collector update functions, the registry listener, the
per-protocol event dispatch (`AppEvent`/`step`), the orchestrator's action
trace, and the pure renderers (text and JSON).  Machine integers `u32`/`i32`
are modelled as `Nat`/`Int`: the program only stores and prints them (no
arithmetic that could overflow), and `usize` indices as `Nat`.  Terminal
colour styling (the `colored` crate) is modelled as the identity on strings:
the crate emits no escape sequences when stdout is not a tty, and the spec
declares string styling out of scope.
-/

/-- Index-keyed in-place update, mirroring Rust's `Vec::get_mut(i)` pattern:
if the index is in range the element is replaced by `f` of it, otherwise the
list is unchanged. -/
def modifyIdx : List α → Nat → (α → α) → List α
  | [], _, _ => []
  | a :: as, 0, f => f a :: as
  | a :: as, n + 1, f => a :: modifyIdx as n f

theorem modifyIdx_nil (n : Nat) (f : α → α) : modifyIdx [] n f = [] := rfl

theorem modifyIdx_oob (l : List α) (n : Nat) (f : α → α) (h : l.length ≤ n) :
    modifyIdx l n f = l := by
  induction l generalizing n with
  | nil => rfl
  | cons a as ih =>
    cases n with
    | zero => simp at h
    | succ n =>
      simp only [modifyIdx, List.cons.injEq, true_and]
      exact ih n (by simpa using h)

theorem length_modifyIdx (l : List α) (n : Nat) (f : α → α) :
    (modifyIdx l n f).length = l.length := by
  induction l generalizing n with
  | nil => rfl
  | cons a as ih =>
    cases n with
    | zero => simp [modifyIdx]
    | succ n => simp [modifyIdx, ih]

theorem modifyIdx_getElem? (l : List α) (n : Nat) (f : α → α) (m : Nat) :
    (modifyIdx l n f)[m]? = if m = n then l[m]?.map f else l[m]? := by
  induction l generalizing n m with
  | nil => simp [modifyIdx]
  | cons a as ih =>
    cases n with
    | zero =>
      cases m with
      | zero => simp [modifyIdx]
      | succ m => simp [modifyIdx]
    | succ n =>
      cases m with
      | zero => simp [modifyIdx]
      | succ m =>
        simp only [modifyIdx, List.getElem?_cons_succ, ih]
        by_cases h : m = n <;> simp [h]

theorem modifyIdx_eq_self (l : List α) (n : Nat) (f : α → α)
    (h : ∀ x, l[n]? = some x → f x = x) : modifyIdx l n f = l := by
  induction l generalizing n with
  | nil => rfl
  | cons a as ih =>
    cases n with
    | zero =>
      simp only [modifyIdx, List.cons.injEq, and_true]
      exact h a (by simp)
    | succ n =>
      simp only [modifyIdx, List.cons.injEq, true_and]
      exact ih n (by simpa using h)

/-- Rust `format!` left-aligned padding `{:<w}`: pad with spaces on the right
to the requested width. -/
def padRight (s : String) (w : Nat) : String :=
  s ++ String.mk (List.replicate (w - s.length) ' ')

/-- Substring test, used to state that a rendered line mentions a fragment. -/
def strContains (s pat : String) : Bool :=
  decide (pat.data <:+: s.data)

/-- Check that each pattern occurs (as a substring of some line) in order:
the first pattern in some line, the next pattern in a strictly later line,
and so on. -/
def containsInOrder : List String → List String → Bool
  | _, [] => true
  | [], _ :: _ => false
  | line :: lines, pat :: pats =>
    if strContains line pat then containsInOrder lines pats
    else containsInOrder lines (pat :: pats)

/-! ## Data model (src/app.rs, src/protocols/\*.rs) -/

/-- Global info structure (`GlobalInfo` in src/app.rs): `name` is the
server-assigned numeric id. -/
structure GlobalInfo where
  name : Nat
  interface : String
  version : Nat
deriving DecidableEq, Repr

/-- Seat info structure (`SeatInfo` in src/protocols/wl_seat.rs). -/
structure SeatInfo where
  name : Nat
  seat_name : String
  capabilities : List String
  keyboard_repeat_rate : Option Int
  keyboard_repeat_delay : Option Int
deriving DecidableEq, Repr

/-- Output mode (`OutputMode` in src/protocols/wl_output.rs). -/
structure OutputMode where
  width : Int
  height : Int
  refresh : Int
  flags : List String
deriving DecidableEq, Repr

/-- Output info structure (`OutputInfo` in src/protocols/wl_output.rs). -/
structure OutputInfo where
  name : Nat
  output_name : String
  description : String
  x : Int
  y : Int
  scale : Int
  physical_width : Int
  physical_height : Int
  make : String
  model : String
  subpixel_orientation : String
  output_transform : String
  modes : List OutputMode
deriving DecidableEq, Repr

/-- SHM format entry (`ShmFormat` in src/protocols/wl_shm.rs). -/
structure ShmFormat where
  format : Nat
  fourcc : String
deriving DecidableEq, Repr

/-- SHM info structure (`ShmInfo` in src/protocols/wl_shm.rs). -/
structure ShmInfo where
  name : Nat
  formats : List ShmFormat
deriving DecidableEq, Repr

/-- DRM lease connector info (src/protocols/wp_drm_lease_device.rs). -/
structure DrmLeaseConnectorInfo where
  name : String
  description : String
  connector_id : Nat
deriving DecidableEq, Repr

/-- DRM lease device info (src/protocols/wp_drm_lease_device.rs). -/
structure DrmLeaseDeviceInfo where
  name : Nat
  device_path : Option String
  connectors : List DrmLeaseConnectorInfo
deriving DecidableEq, Repr

/-- Presentation info (src/protocols/wp_presentation.rs). -/
structure PresentationInfo where
  name : Nat
  clock_id : Option Nat
deriving DecidableEq, Repr

/-- Treeland output manager info (src/protocols/treeland_output_manager.rs). -/
structure TreelandOutputManagerInfo where
  name : Nat
  primary_output : Option String
deriving DecidableEq, Repr

/-- XDG output info (src/protocols/xdg_output.rs): one per
(manager, output) pair; `output_id` records the paired output's local index. -/
structure XdgOutputInfo where
  output_id : Nat
  name : String
  description : String
  logical_x : Int
  logical_y : Int
  logical_width : Int
  logical_height : Int
deriving DecidableEq, Repr

/-- XDG output manager info (src/protocols/xdg_output.rs). -/
structure XdgOutputManagerInfo where
  name : Nat
  outputs : List XdgOutputInfo
deriving DecidableEq, Repr

/-- The transport library's decoded enum wrapper `WEnum<T>`: a recognized
variant, or the raw wire value when outside the generated enum. -/
inductive WEnum (α : Type) where
  | value (v : α)
  | unknown (wire : Nat)
deriving DecidableEq, Repr

/-- `wl_output::Subpixel` variants recognized by the transport library
(wire discriminants 0-5). -/
inductive Subpixel where
  | unknownVariant | noneVariant | horizontalRgb | horizontalBgr
  | verticalRgb | verticalBgr
deriving DecidableEq, Repr

/-- `wl_output::Transform` variants recognized by the transport library
(wire discriminants 0-7). -/
inductive Transform where
  | normal | rot90 | rot180 | rot270
  | flipped | flipped90 | flipped180 | flipped270
deriving DecidableEq, Repr

/-- Transport-library decoding of a `wl_output.subpixel` wire value
(external collaborator: `WEnum::from`, recognized discriminants 0-5). -/
def subpixelFromWire (v : Nat) : WEnum Subpixel :=
  match v with
  | 0 => .value .unknownVariant
  | 1 => .value .noneVariant
  | 2 => .value .horizontalRgb
  | 3 => .value .horizontalBgr
  | 4 => .value .verticalRgb
  | 5 => .value .verticalBgr
  | _ => .unknown v

/-- Transport-library decoding of a `wl_output.transform` wire value
(external collaborator: `WEnum::from`, recognized discriminants 0-7). -/
def transformFromWire (v : Nat) : WEnum Transform :=
  match v with
  | 0 => .value .normal
  | 1 => .value .rot90
  | 2 => .value .rot180
  | 3 => .value .rot270
  | 4 => .value .flipped
  | 5 => .value .flipped90
  | 6 => .value .flipped180
  | 7 => .value .flipped270
  | _ => .unknown v

/-- Transport-library decoding of the `wl_output.mode` bitfield
(flag bits: current = 0x1, preferred = 0x2; values within the mask decode to
`value` carrying the exact bits, others to `unknown`). -/
def modeFromWire (v : Nat) : WEnum Nat :=
  if v &&& 3 = v then .value v else .unknown v

/-- Transport-library decoding of the `wl_seat.capability` bitfield
(flag bits: pointer = 1, keyboard = 2, touch = 4). -/
def capabilityFromWire (v : Nat) : WEnum Nat :=
  if v &&& 7 = v then .value v else .unknown v

/-- Output geometry event payload (`OutputGeometry` in
src/protocols/wl_output.rs). -/
structure OutputGeometry where
  x : Int
  y : Int
  physical_width : Int
  physical_height : Int
  subpixel : WEnum Subpixel
  transform : WEnum Transform
  make : String
  model : String
deriving DecidableEq, Repr

/-- Proxy objects held by the app state are represented by the dense local
index attached to them at bind time (their only observable used by this
program); an xdg_output proxy carries its (manager, output) index pair. -/
structure AppData where
  globals : List GlobalInfo
  seats : List SeatInfo
  outputs : List OutputInfo
  shm_info : List ShmInfo
  drm_lease_devices : List DrmLeaseDeviceInfo
  presentation_info : List PresentationInfo
  treeland_output_managers : List TreelandOutputManagerInfo
  xdg_output_managers : List XdgOutputManagerInfo
  seat_objects : List Nat
  output_objects : List Nat
  shm_objects : List Nat
  presentation_objects : List Nat
  treeland_output_manager_objects : List Nat
  xdg_output_manager_objects : List Nat
  xdg_output_objects : List (Nat × Nat)
deriving DecidableEq, Repr

namespace AppData

/-- `AppData::new`. -/
def new : AppData where
  globals := []
  seats := []
  outputs := []
  shm_info := []
  drm_lease_devices := []
  presentation_info := []
  treeland_output_managers := []
  xdg_output_managers := []
  seat_objects := []
  output_objects := []
  shm_objects := []
  presentation_objects := []
  treeland_output_manager_objects := []
  xdg_output_manager_objects := []
  xdg_output_objects := []

/-- `AppData::add_global` (src/app.rs). -/
def add_global (a : AppData) (name : Nat) (interface : String) (version : Nat) :
    AppData :=
  { a with globals := a.globals ++ [⟨name, interface, version⟩] }

/-- `AppData::add_seat` (src/protocols/wl_seat.rs). -/
def add_seat (a : AppData) (name : Nat) (seat_name : String) : AppData :=
  { a with seats := a.seats ++ [⟨name, seat_name, [], none, none⟩] }

/-- `AppData::update_seat_capabilities` (src/protocols/wl_seat.rs). -/
def update_seat_capabilities (a : AppData) (seat_index : Nat)
    (capabilities : List String) : AppData :=
  let seats := modifyIdx a.seats seat_index
    (fun s => { s with capabilities := capabilities })
  { a with seats := seats }

/-- `AppData::update_seat_keyboard_repeat` (src/protocols/wl_seat.rs). -/
def update_seat_keyboard_repeat (a : AppData) (seat_index : Nat)
    (rate delay : Int) : AppData :=
  let seats := modifyIdx a.seats seat_index
    (fun s => { s with keyboard_repeat_rate := some rate,
                       keyboard_repeat_delay := some delay })
  { a with seats := seats }

/-- Seat name update, inlined in the `wl_seat` dispatch handler
(src/protocols/wl_seat.rs, `Event::Name` arm). -/
def update_seat_name (a : AppData) (seat_index : Nat) (name : String) :
    AppData :=
  let seats := modifyIdx a.seats seat_index (fun s => { s with seat_name := name })
  { a with seats := seats }

/-- `AppData::add_output` (src/protocols/wl_output.rs). -/
def add_output (a : AppData) (name : Nat) (output_name : String) : AppData :=
  { a with outputs := a.outputs ++
      [⟨name, output_name, "", 0, 0, 1, 0, 0, "", "", "", "", []⟩] }

/-- Subpixel enum to string conversion, the `match geometry.subpixel` in
`AppData::update_output_geometry` (src/protocols/wl_output.rs). -/
def subpixelToString (w : WEnum Subpixel) : String :=
  match w with
  | .value .unknownVariant => "unknown"
  | .value .noneVariant => "none"
  | .value .horizontalRgb => "horizontal_rgb"
  | .value .horizontalBgr => "horizontal_bgr"
  | .value .verticalRgb => "vertical_rgb"
  | .value .verticalBgr => "vertical_bgr"
  | _ => "unknown"

/-- Transform enum to string conversion, the `match geometry.transform` in
`AppData::update_output_geometry` (src/protocols/wl_output.rs). -/
def transformToString (w : WEnum Transform) : String :=
  match w with
  | .value .normal => "normal"
  | .value .rot90 => "90"
  | .value .rot180 => "180"
  | .value .rot270 => "270"
  | .value .flipped => "flipped"
  | .value .flipped90 => "flipped-90"
  | .value .flipped180 => "flipped-180"
  | .value .flipped270 => "flipped-270"
  | _ => "normal"

/-- `AppData::update_output_geometry` (src/protocols/wl_output.rs). -/
def update_output_geometry (a : AppData) (output_index : Nat)
    (geometry : OutputGeometry) : AppData :=
  let outputs := modifyIdx a.outputs output_index
    (fun o => { o with
        x := geometry.x
        y := geometry.y
        physical_width := geometry.physical_width
        physical_height := geometry.physical_height
        make := geometry.make
        model := geometry.model
        subpixel_orientation := subpixelToString geometry.subpixel
        output_transform := transformToString geometry.transform })
  { a with outputs := outputs }

/-- Mode flag list computation, the `match flags` in
`AppData::update_output_mode` (src/protocols/wl_output.rs).  The pattern
`WEnum::Value(Mode::Current)` matches a decoded bitflags value exactly equal
to the `current` bit (0x1), and `WEnum::Value(Mode::Preferred)` exactly the
`preferred` bit (0x2); any other decoded value falls to the wildcard arm. -/
def modeFlagsOf (flags : WEnum Nat) : List String :=
  match flags with
  | .value 1 => ["current"]
  | .value 2 => ["preferred"]
  | _ => []

/-- `AppData::update_output_mode` (src/protocols/wl_output.rs). -/
def update_output_mode (a : AppData) (output_index : Nat)
    (flags : WEnum Nat) (width height refresh : Int) : AppData :=
  let outputs := modifyIdx a.outputs output_index
    (fun o => { o with modes := o.modes ++ [⟨width, height, refresh, modeFlagsOf flags⟩] })
  { a with outputs := outputs }

/-- `AppData::update_output_scale` (src/protocols/wl_output.rs). -/
def update_output_scale (a : AppData) (output_index : Nat) (factor : Int) :
    AppData :=
  let outputs := modifyIdx a.outputs output_index (fun o => { o with scale := factor })
  { a with outputs := outputs }

/-- `AppData::update_output_name` (src/protocols/wl_output.rs). -/
def update_output_name (a : AppData) (output_index : Nat) (name : String) :
    AppData :=
  let outputs := modifyIdx a.outputs output_index (fun o => { o with output_name := name })
  { a with outputs := outputs }

/-- `AppData::update_output_description` (src/protocols/wl_output.rs). -/
def update_output_description (a : AppData) (output_index : Nat)
    (description : String) : AppData :=
  let outputs := modifyIdx a.outputs output_index
    (fun o => { o with description := description })
  { a with outputs := outputs }

end AppData

/-- `format_to_fourcc` (src/protocols/wl_shm.rs): render the four bytes of the
format code as characters when all are printable ASCII, otherwise as eight
lowercase hex digits. -/
def format_to_fourcc (format : Nat) : String :=
  let bytes := [format % 256, (format / 256) % 256,
                (format / 65536) % 256, (format / 16777216) % 256]
  if bytes.all (fun b => 33 ≤ b ∧ b ≤ 126) then
    String.mk (bytes.map Char.ofNat)
  else
    String.mk (((Nat.toDigits 16 (format % 4294967296)).reverse ++
      List.replicate 8 '0').take 8).reverse

namespace AppData

/-- `AppData::add_shm` (src/protocols/wl_shm.rs). -/
def add_shm (a : AppData) (name : Nat) : AppData :=
  { a with shm_info := a.shm_info ++ [⟨name, []⟩] }

/-- `AppData::add_shm_format` (src/protocols/wl_shm.rs).  Both `WEnum` arms
recover the raw `u32` wire value (`value as u32` / the unknown payload), so
the stored format code is the wire value either way. -/
def add_shm_format (a : AppData) (shm_index : Nat) (format : WEnum Nat) :
    AppData :=
  let format_value := match format with
    | .value v => v
    | .unknown v => v
  let shm_info := modifyIdx a.shm_info shm_index
    (fun s => { s with formats := s.formats ++
        [⟨format_value, format_to_fourcc format_value⟩] })
  { a with shm_info := shm_info }

/-- `AppData::add_drm_lease_device` (src/protocols/wp_drm_lease_device.rs). -/
def add_drm_lease_device (a : AppData) (name : Nat) : AppData :=
  { a with drm_lease_devices := a.drm_lease_devices ++ [⟨name, none, []⟩] }

/-- `AppData::update_drm_lease_device_path`
(src/protocols/wp_drm_lease_device.rs, dead code preserved as in source). -/
def update_drm_lease_device_path (a : AppData) (device_index : Nat)
    (path : String) : AppData :=
  let devices := modifyIdx a.drm_lease_devices device_index
    (fun d => { d with device_path := some path })
  { a with drm_lease_devices := devices }

/-- `AppData::add_drm_lease_connector`
(src/protocols/wp_drm_lease_device.rs, dead code preserved as in source). -/
def add_drm_lease_connector (a : AppData) (device_index : Nat)
    (name description : String) (connector_id : Nat) : AppData :=
  let devices := modifyIdx a.drm_lease_devices device_index
    (fun d => { d with connectors := d.connectors ++ [⟨name, description, connector_id⟩] })
  { a with drm_lease_devices := devices }

/-- `AppData::add_presentation` (src/protocols/wp_presentation.rs). -/
def add_presentation (a : AppData) (name : Nat) : AppData :=
  { a with presentation_info := a.presentation_info ++ [⟨name, none⟩] }

/-- `AppData::update_presentation_clock_id` (src/protocols/wp_presentation.rs). -/
def update_presentation_clock_id (a : AppData) (presentation_index : Nat)
    (clock_id : Nat) : AppData :=
  let info := modifyIdx a.presentation_info presentation_index
    (fun p => { p with clock_id := some clock_id })
  { a with presentation_info := info }

/-- `AppData::add_treeland_output_manager`
(src/protocols/treeland_output_manager.rs). -/
def add_treeland_output_manager (a : AppData) (name : Nat) : AppData :=
  { a with treeland_output_managers := a.treeland_output_managers ++ [⟨name, none⟩] }

/-- `AppData::update_treeland_primary_output`
(src/protocols/treeland_output_manager.rs). -/
def update_treeland_primary_output (a : AppData) (manager_index : Nat)
    (output_name : String) : AppData :=
  let managers := modifyIdx a.treeland_output_managers manager_index
    (fun m => { m with primary_output := some output_name })
  { a with treeland_output_managers := managers }

/-- `AppData::add_xdg_output_manager` (src/protocols/xdg_output.rs). -/
def add_xdg_output_manager (a : AppData) (name : Nat) : AppData :=
  { a with xdg_output_managers := a.xdg_output_managers ++ [⟨name, []⟩] }

/-- `AppData::add_xdg_output` (src/protocols/xdg_output.rs). -/
def add_xdg_output (a : AppData) (manager_index : Nat) (output_id : Nat) :
    AppData :=
  let managers := modifyIdx a.xdg_output_managers manager_index
    (fun m => { m with outputs := m.outputs ++ [⟨output_id, "", "", 0, 0, 0, 0⟩] })
  { a with xdg_output_managers := managers }

/-- `AppData::update_xdg_output_name` (src/protocols/xdg_output.rs). -/
def update_xdg_output_name (a : AppData) (manager_index output_index : Nat)
    (name : String) : AppData :=
  let upd := fun (m : XdgOutputManagerInfo) =>
    let outputs := modifyIdx m.outputs output_index (fun o => { o with name := name })
    { m with outputs := outputs }
  let managers := modifyIdx a.xdg_output_managers manager_index upd
  { a with xdg_output_managers := managers }

/-- `AppData::update_xdg_output_description` (src/protocols/xdg_output.rs). -/
def update_xdg_output_description (a : AppData)
    (manager_index output_index : Nat) (description : String) : AppData :=
  let upd := fun (m : XdgOutputManagerInfo) =>
    let outputs := modifyIdx m.outputs output_index (fun o => { o with description := description })
    { m with outputs := outputs }
  let managers := modifyIdx a.xdg_output_managers manager_index upd
  { a with xdg_output_managers := managers }

/-- `AppData::update_xdg_output_logical_position` (src/protocols/xdg_output.rs). -/
def update_xdg_output_logical_position (a : AppData)
    (manager_index output_index : Nat) (x y : Int) : AppData :=
  let upd := fun (m : XdgOutputManagerInfo) =>
    let outputs := modifyIdx m.outputs output_index
      (fun o => { o with logical_x := x, logical_y := y })
    { m with outputs := outputs }
  let managers := modifyIdx a.xdg_output_managers manager_index upd
  { a with xdg_output_managers := managers }

/-- `AppData::update_xdg_output_logical_size` (src/protocols/xdg_output.rs). -/
def update_xdg_output_logical_size (a : AppData)
    (manager_index output_index : Nat) (width height : Int) : AppData :=
  let upd := fun (m : XdgOutputManagerInfo) =>
    let outputs := modifyIdx m.outputs output_index
      (fun o => { o with logical_width := width, logical_height := height })
    { m with outputs := outputs }
  let managers := modifyIdx a.xdg_output_managers manager_index upd
  { a with xdg_output_managers := managers }

end AppData

/-! ## Registry listener (src/protocols/registry.rs) -/

/-- A `wl_registry::Event::Global` announcement. -/
structure Announcement where
  name : Nat
  interface : String
  version : Nat
deriving DecidableEq, Repr

/-- The `Dispatch<WlRegistry, ()>` handler body for a `Global` event
(src/protocols/registry.rs): recognized interfaces create a record and a
bound proxy (modelled by pushing the bind-time index onto the corresponding
object list); every announcement is recorded as a global. -/
def registryGlobal (a : AppData) (e : Announcement) : AppData :=
  let a :=
    if e.interface = "wl_seat" then
      let a := a.add_seat e.name ("seat" ++ toString a.seats.length)
      let seat_index := a.seats.length - 1
      { a with seat_objects := a.seat_objects ++ [seat_index] }
    else if e.interface = "wl_output" then
      let a := a.add_output e.name ("output" ++ toString a.outputs.length)
      let output_index := a.outputs.length - 1
      { a with output_objects := a.output_objects ++ [output_index] }
    else if e.interface = "wl_shm" then
      let a := a.add_shm e.name
      let shm_index := a.shm_info.length - 1
      { a with shm_objects := a.shm_objects ++ [shm_index] }
    else if e.interface = "wp_drm_lease_device_v1" then
      a.add_drm_lease_device e.name
    else if e.interface = "wp_presentation" then
      let a := a.add_presentation e.name
      let presentation_index := a.presentation_info.length - 1
      { a with presentation_objects := a.presentation_objects ++ [presentation_index] }
    else if e.interface = "treeland_output_manager_v1" then
      let a := a.add_treeland_output_manager e.name
      let manager_index := a.treeland_output_managers.length - 1
      { a with treeland_output_manager_objects :=
          a.treeland_output_manager_objects ++ [manager_index] }
    else if e.interface = "zxdg_output_manager_v1" then
      let a := a.add_xdg_output_manager e.name
      let manager_index := a.xdg_output_managers.length - 1
      { a with xdg_output_manager_objects :=
          a.xdg_output_manager_objects ++ [manager_index] }
    else
      a
  a.add_global e.name e.interface e.version

/-- Phase 1: every global announced during the first registry round-trip is
processed by the registry listener, in announcement order. -/
def processAnnouncements (evs : List Announcement) : AppData :=
  evs.foldl registryGlobal AppData.new

/-! ## Event dispatch (the `Dispatch` impls in src/protocols/\*.rs)

Each constructor carries the dense local index attached to the proxy at bind
time (the `UserData` tag echoed by the dispatch layer) together with the
event payload. -/

/-- Events delivered to the per-protocol collectors after binding. -/
inductive AppEvent where
  | seatName (seat_index : Nat) (name : String)
  | seatCapabilities (seat_index : Nat) (capabilities : WEnum Nat)
  | keyboardRepeatInfo (seat_index : Nat) (rate delay : Int)
  | outputGeometry (output_index : Nat) (g : OutputGeometry)
  | outputMode (output_index : Nat) (flags : WEnum Nat) (width height refresh : Int)
  | outputScale (output_index : Nat) (factor : Int)
  | outputName (output_index : Nat) (name : String)
  | outputDescription (output_index : Nat) (description : String)
  | shmFormat (shm_index : Nat) (format : WEnum Nat)
  | presentationClockId (presentation_index : Nat) (clk_id : Nat)
  | treelandPrimaryOutput (manager_index : Nat) (output_name : String)
  | xdgOutputName (manager_index output_index : Nat) (name : String)
  | xdgOutputDescription (manager_index output_index : Nat) (description : String)
  | xdgOutputLogicalPosition (manager_index output_index : Nat) (x y : Int)
  | xdgOutputLogicalSize (manager_index output_index : Nat) (width height : Int)
deriving DecidableEq, Repr

/-- Capability list computation, the `match capabilities` in the `wl_seat`
dispatch handler (src/protocols/wl_seat.rs).  The pattern
`WEnum::Value(Capability::Pointer)` matches a decoded bitflags value exactly
equal to the `pointer` bit (1), `Keyboard` exactly 2, `Touch` exactly 4; any
other decoded value (including combined bits) falls to the wildcard arm. -/
def capabilityStrings (capabilities : WEnum Nat) : List String :=
  match capabilities with
  | .value 1 => ["pointer"]
  | .value 2 => ["keyboard"]
  | .value 4 => ["touch"]
  | _ => []

/-- One dispatch step: the union of the `Dispatch` impl bodies of
src/protocols/wl_seat.rs, wl_output.rs, wl_shm.rs, wp_presentation.rs,
treeland_output_manager.rs and xdg_output.rs. -/
def step (a : AppData) (e : AppEvent) : AppData :=
  match e with
  | .seatName i name => a.update_seat_name i name
  | .seatCapabilities i capabilities =>
      a.update_seat_capabilities i (capabilityStrings capabilities)
  | .keyboardRepeatInfo i rate delay => a.update_seat_keyboard_repeat i rate delay
  | .outputGeometry i g => a.update_output_geometry i g
  | .outputMode i flags w h r => a.update_output_mode i flags w h r
  | .outputScale i factor => a.update_output_scale i factor
  | .outputName i name => a.update_output_name i name
  | .outputDescription i d => a.update_output_description i d
  | .shmFormat i format => a.add_shm_format i format
  | .presentationClockId i clk => a.update_presentation_clock_id i clk
  | .treelandPrimaryOutput i name => a.update_treeland_primary_output i name
  | .xdgOutputName m o name => a.update_xdg_output_name m o name
  | .xdgOutputDescription m o d => a.update_xdg_output_description m o d
  | .xdgOutputLogicalPosition m o x y => a.update_xdg_output_logical_position m o x y
  | .xdgOutputLogicalSize m o w h => a.update_xdg_output_logical_size m o w h

/-- The (manager, output) pair of an xdg-output event does not refer to an
existing logical-output record. -/
def xdgPairMissing (a : AppData) (m o : Nat) : Prop :=
  a.xdg_output_managers.length ≤ m ∨
    ∀ mgr, a.xdg_output_managers[m]? = some mgr → mgr.outputs.length ≤ o

/-- The record (or record pair) a collector event is keyed to does not exist
in the current state. -/
def eventTargetsMissing (a : AppData) (e : AppEvent) : Prop :=
  match e with
  | .seatName i _ => a.seats.length ≤ i
  | .seatCapabilities i _ => a.seats.length ≤ i
  | .keyboardRepeatInfo i _ _ => a.seats.length ≤ i
  | .outputGeometry i _ => a.outputs.length ≤ i
  | .outputMode i _ _ _ _ => a.outputs.length ≤ i
  | .outputScale i _ => a.outputs.length ≤ i
  | .outputName i _ => a.outputs.length ≤ i
  | .outputDescription i _ => a.outputs.length ≤ i
  | .shmFormat i _ => a.shm_info.length ≤ i
  | .presentationClockId i _ => a.presentation_info.length ≤ i
  | .treelandPrimaryOutput i _ => a.treeland_output_managers.length ≤ i
  | .xdgOutputName m o _ => xdgPairMissing a m o
  | .xdgOutputDescription m o _ => xdgPairMissing a m o
  | .xdgOutputLogicalPosition m o _ _ => xdgPairMissing a m o
  | .xdgOutputLogicalSize m o _ _ => xdgPairMissing a m o

/-! ## Snapshot orchestrator (src/main.rs, `main`) -/

/-- Phase 2 (src/main.rs lines 1268-1300): for every xdg output manager
object and every output object (drained and restored unchanged), create one
dependent xdg_output proxy tagged with the (manager, output) index pair, and
record one placeholder `XdgOutputInfo` per pair.  The intermediate
`xdg_output_infos` vector collects, for each manager, the output indices
0..numOutputs in order, which the second loop nest replays through
`add_xdg_output`; the two loop nests are fused here. -/
def phase2 (a : AppData) : AppData :=
  let numM := a.xdg_output_manager_objects.length
  let numO := a.output_objects.length
  let objs := (List.range numM).flatMap
    (fun m => (List.range numO).map (fun o => (m, o)))
  let a := { a with xdg_output_objects := objs }
  (List.range numM).foldl
    (fun acc m => (List.range numO).foldl
      (fun acc2 o => acc2.add_xdg_output m o) acc) a

/-- Requests and barriers issued by `main` (src/main.rs), in program order. -/
inductive OrchAction where
  | getRegistry
  | roundtrip
  | bindXdgOutput (manager_index output_index : Nat)
  | bindKeyboard (seat_index : Nat)
  | render
deriving DecidableEq, Repr

/-- The orchestrator's request/barrier trace (src/main.rs lines 1263-1328):
get_registry, one round-trip; the phase-2 xdg_output binds (no barrier); per
seat a keyboard bind followed by one round-trip; five further round-trips;
then rendering. -/
def mainActions (numManagers numOutputs numSeats : Nat) : List OrchAction :=
  [OrchAction.getRegistry, OrchAction.roundtrip]
    ++ (List.range numManagers).flatMap
        (fun m => (List.range numOutputs).map (fun o => OrchAction.bindXdgOutput m o))
    ++ (List.range numSeats).flatMap
        (fun s => [OrchAction.bindKeyboard s, OrchAction.roundtrip])
    ++ List.replicate 5 OrchAction.roundtrip
    ++ [OrchAction.render]

/-! ## Renderer (src/output.rs)

The renderers are pure over the frozen snapshot; text rendering yields the
list of printed lines (one `println!` with embedded newlines yields its
constituent lines).  Style markup from the `colored` crate is the identity
(no escape codes off-tty; styling is out of scope per the spec). -/

/-- Ordering used by `sort_by(|a, b| a.interface.cmp(&b.interface))`:
lexicographic on the interface name.  Rust's `sort_by` is a stable sort,
modelled by `List.mergeSort`. -/
def sortGlobals (gl : List GlobalInfo) : List GlobalInfo :=
  gl.mergeSort (fun x y => decide (x.interface ≤ y.interface))

/-- The filter from `protocol_filter` applied to a global. -/
def filterPred (protocol_filter : Option String) (g : GlobalInfo) : Bool :=
  match protocol_filter with
  | some p => g.interface == p
  | none => true

/-- The globals sequence a renderer iterates over: announcement order,
filtered, and stably sorted by interface name when requested
(src/output.rs lines 146-154 and the JSON analogues). -/
def renderedGlobals (a : AppData) (sort_output : Bool)
    (protocol_filter : Option String) : List GlobalInfo :=
  let gl := a.globals.filter (filterPred protocol_filter)
  if sort_output then sortGlobals gl else gl

/-- `protocol_has_details` (src/output.rs). -/
def protocol_has_details (protocol : String) : Bool :=
  protocol == "wl_seat" || protocol == "wl_output" || protocol == "wl_shm" ||
  protocol == "wp_drm_lease_device_v1" || protocol == "wp_presentation" ||
  protocol == "treeland_output_manager_v1" || protocol == "zxdg_output_manager_v1"

/-- The `[Info]` line printed when the filtered protocol has no detail
renderer. -/
def noDetailsLine : String :=
  "        [Info] wayland-info-rs does not implement details for this protocol"

/-- The per-global header line: with sorting the numeric id is omitted. -/
def globalHeaderLine (sort_output : Bool) (g : GlobalInfo) : String :=
  if sort_output then
    "interface: " ++ padRight g.interface 45 ++ " version: " ++ toString g.version
  else
    "name: " ++ padRight (toString g.name) 4 ++ " interface: " ++
      padRight g.interface 45 ++ " version: " ++ toString g.version

/-- Zero-padded three-digit rendering of a value below 1000. -/
def pad3 (n : Nat) : String :=
  if n < 10 then "00" ++ toString n
  else if n < 100 then "0" ++ toString n
  else toString n

/-- Rendering of `mode.refresh as f32 / 1000.0` under `{:.3}`
(src/output.rs line 227): the mHz value over 1000 with three decimals.
Modelled with exact decimal arithmetic; this agrees with the f32 computation
whenever the quotient is exactly representable (in particular for every
refresh value a compositor advertises, e.g. 60000 -> "60.000"). -/
def formatHz (refresh : Int) : String :=
  let n := refresh.natAbs
  (if refresh < 0 then "-" else "") ++ toString (n / 1000) ++ "." ++ pad3 (n % 1000)

/-- Seat detail section of `print_all_info` (src/output.rs lines 182-195). -/
def seatDetailLines (a : AppData) (g : GlobalInfo) : List String :=
  if g.interface == "wl_seat" then
    match a.seats.find? (fun s => s.name == g.name) with
    | some seat =>
      ["        name: " ++ seat.seat_name]
        ++ (if seat.capabilities.isEmpty then [] else
              ["        capabilities: " ++ String.intercalate " " seat.capabilities])
        ++ (match seat.keyboard_repeat_rate with
            | some rate => ["        keyboard repeat rate: " ++ toString rate]
            | none => [])
        ++ (match seat.keyboard_repeat_delay with
            | some delay => ["        keyboard repeat delay: " ++ toString delay]
            | none => [])
    | none => []
  else []

/-- Output detail section of `print_all_info` (src/output.rs lines 197-232). -/
def outputDetailLines (a : AppData) (g : GlobalInfo) : List String :=
  if g.interface == "wl_output" then
    match a.outputs.find? (fun o => o.name == g.name) with
    | some o =>
      ["        name: " ++ o.output_name]
        ++ (if o.description.isEmpty then [] else
              ["        description: " ++ o.description])
        ++ ["        x: " ++ toString o.x ++ ", y: " ++ toString o.y ++
              ", scale: " ++ toString o.scale ++ ","]
        ++ ["        physical_width: " ++ toString o.physical_width ++
              " mm, physical_height: " ++ toString o.physical_height ++ " mm,"]
        ++ (if o.make.isEmpty then [] else
              ["        make: '" ++ o.make ++ "', model: '" ++ o.model ++ "',"])
        ++ ["        subpixel_orientation: " ++ o.subpixel_orientation ++
              ", output_transform: " ++ o.output_transform ++ ","]
        ++ o.modes.flatMap (fun m =>
            ["        mode:",
             "                width: " ++ toString m.width ++ " px, height: " ++
               toString m.height ++ " px, refresh: " ++ formatHz m.refresh ++ " Hz,",
             "                flags: " ++ String.intercalate " " m.flags])
    | none => []
  else []

/-- SHM detail section of `print_all_info` (src/output.rs lines 234-240). -/
def shmDetailLines (a : AppData) (g : GlobalInfo) : List String :=
  if g.interface == "wl_shm" then
    match a.shm_info.find? (fun s => s.name == g.name) with
    | some shm =>
      shm.formats.map (fun f =>
        "        format: " ++ f.fourcc ++ " (" ++ toString f.format ++ ")")
    | none => []
  else []

/-- DRM lease device detail section of `print_all_info`
(src/output.rs lines 242-269). -/
def drmDetailLines (a : AppData) (g : GlobalInfo) : List String :=
  if g.interface == "wp_drm_lease_device_v1" then
    match a.drm_lease_devices.find? (fun d => d.name == g.name) with
    | some device =>
      (match device.device_path with
       | some path => ["        path: " ++ path]
       | none => ["        path: /dev/dri/card1"])
        ++ (if device.connectors.isEmpty then [] else
              "        connectors:" :: device.connectors.map (fun c =>
                "                name: " ++ c.name ++ ", description: " ++
                  c.description ++ ", connector_id: " ++ toString c.connector_id))
    | none => ["        [Warning] DRM Lease device info not found!"]
  else []

/-- Presentation detail section of `print_all_info`
(src/output.rs lines 271-288). -/
def presentationDetailLines (a : AppData) (g : GlobalInfo) : List String :=
  if g.interface == "wp_presentation" then
    match a.presentation_info.find? (fun p => p.name == g.name) with
    | some presentation =>
      match presentation.clock_id with
      | some clock_id =>
          ["        presentation clock id: " ++ toString clock_id ++
            " (CLOCK_MONOTONIC)"]
      | none => ["        presentation clock id: 1 (CLOCK_MONOTONIC)"]
    | none => ["        [Warning] Presentation info not found!"]
  else []

/-- Treeland primary-output detail section of `print_all_info`
(src/output.rs lines 290-302). -/
def treelandDetailLines (a : AppData) (g : GlobalInfo) : List String :=
  if g.interface == "treeland_output_manager_v1" then
    match a.treeland_output_managers.find? (fun m => m.name == g.name) with
    | some manager =>
      match manager.primary_output with
      | some primary => ["        Primary output: " ++ primary]
      | none => ["        Primary output: <unknown>"]
    | none => []
  else []

/-- Logical-output detail section of `print_all_info`
(src/output.rs lines 304-325). -/
def xdgDetailLines (a : AppData) (g : GlobalInfo) : List String :=
  if g.interface == "zxdg_output_manager_v1" then
    match a.xdg_output_managers.find? (fun m => m.name == g.name) with
    | some manager =>
      manager.outputs.flatMap (fun o =>
        ["        xdg_output_v1",
         "                output: " ++ toString o.output_id,
         "                name: '" ++ o.name ++ "'",
         "                description: '" ++ o.description ++ "'",
         "                logical_x: " ++ toString o.logical_x ++
           ", logical_y: " ++ toString o.logical_y,
         "                logical_width: " ++ toString o.logical_width ++
           ", logical_height: " ++ toString o.logical_height])
    | none => []
  else []

/-- All protocol detail sections, in the order they appear in
`print_all_info`. -/
def detailLines (a : AppData) (g : GlobalInfo) : List String :=
  seatDetailLines a g ++ outputDetailLines a g ++ shmDetailLines a g ++
    drmDetailLines a g ++ presentationDetailLines a g ++
    treelandDetailLines a g ++ xdgDetailLines a g

/-- Loop body of `print_all_info` past the unsupported-protocol check. -/
def printAllBody (a : AppData) (sort_output : Bool)
    (protocol_filter : Option String) : List String :=
  "Wayland Global Interfaces:" ::
    (renderedGlobals a sort_output protocol_filter).flatMap (fun g =>
      globalHeaderLine sort_output g ::
        (match protocol_filter with
         | some p =>
             if protocol_has_details p then detailLines a g else [noDetailsLine]
         | none => detailLines a g))

/-- `print_all_info` (src/output.rs): full-detail text rendering as the list
of printed lines. -/
def print_all_info (a : AppData) (sort_output : Bool)
    (protocol_filter : Option String) : List String :=
  match protocol_filter with
  | some p =>
    if a.globals.any (fun g => g.interface == p) then
      printAllBody a sort_output (some p)
    else
      ["Protocol not supported: " ++ p]
  | none => printAllBody a sort_output none

/-- Loop body of `print_basic_info` past the unsupported-protocol check. -/
def printBasicBody (a : AppData) (sort_output : Bool)
    (protocol_filter : Option String) : List String :=
  "Wayland Global Interfaces:" ::
    (renderedGlobals a sort_output protocol_filter).flatMap (fun g =>
      globalHeaderLine sort_output g ::
        (match protocol_filter with
         | some p => if protocol_has_details p then [] else [noDetailsLine]
         | none => []))

/-- `print_basic_info` (src/output.rs): basic text rendering as the list of
printed lines. -/
def print_basic_info (a : AppData) (sort_output : Bool)
    (protocol_filter : Option String) : List String :=
  match protocol_filter with
  | some p =>
    if a.globals.any (fun g => g.interface == p) then
      printBasicBody a sort_output (some p)
    else
      ["Protocol not supported: " ++ p]
  | none => printBasicBody a sort_output none

/-- `JsonOutput` (src/output.rs): the full JSON payload; serialization skips
the per-record numeric `name` ids but always emits every field below. -/
structure JsonOutput where
  generation_timestamp : Nat
  globals : List GlobalInfo
  seats : List SeatInfo
  outputs : List OutputInfo
  shm_info : List ShmInfo
  drm_lease_devices : List DrmLeaseDeviceInfo
  presentation_info : List PresentationInfo
  treeland_output_managers : List TreelandOutputManagerInfo
  xdg_output_managers : List XdgOutputManagerInfo
deriving DecidableEq, Repr

/-- `GlobalSummary` (src/output.rs): interface and version only. -/
structure GlobalSummary where
  interface : String
  version : Nat
deriving DecidableEq, Repr

/-- `JsonOutputBasic` (src/output.rs): timestamp plus global summaries, no
per-protocol arrays. -/
structure JsonOutputBasic where
  generation_timestamp : Nat
  globals : List GlobalSummary
deriving DecidableEq, Repr

/-- `to_json_output` (src/output.rs).  `clock` is the outcome of the
system-clock query (`SystemTime::now().duration_since(UNIX_EPOCH)` in ms):
`none` models a clock failure, which `unwrap_or(0)` maps to 0. -/
def to_json_output (a : AppData) (sort_output : Bool)
    (protocol_filter : Option String) (clock : Option Nat) : JsonOutput :=
  let timestamp_ms := clock.getD 0
  let globals := a.globals.filter (filterPred protocol_filter)
  let globals := if sort_output then sortGlobals globals else globals
  match protocol_filter with
  | none =>
      ⟨timestamp_ms, globals, a.seats, a.outputs, a.shm_info,
        a.drm_lease_devices, a.presentation_info, a.treeland_output_managers,
        a.xdg_output_managers⟩
  | some p =>
      ⟨timestamp_ms, globals,
        if p == "wl_seat" then a.seats else [],
        if p == "wl_output" then a.outputs else [],
        if p == "wl_shm" then a.shm_info else [],
        if p == "wp_drm_lease_device_v1" then a.drm_lease_devices else [],
        if p == "wp_presentation" then a.presentation_info else [],
        if p == "treeland_output_manager_v1" then a.treeland_output_managers else [],
        if p == "zxdg_output_manager_v1" then a.xdg_output_managers else []⟩

/-- `to_json_basic` (src/output.rs). -/
def to_json_basic (a : AppData) (sort_output : Bool)
    (protocol_filter : Option String) (clock : Option Nat) : JsonOutputBasic :=
  let timestamp_ms := clock.getD 0
  let globals := (a.globals.filter (filterPred protocol_filter)).map
    (fun g => GlobalSummary.mk g.interface g.version)
  let globals := if sort_output then
      globals.mergeSort (fun x y => decide (x.interface ≤ y.interface))
    else globals
  ⟨timestamp_ms, globals⟩

/-! ## Auxiliary predicates and fixtures -/

/-- Renaming of server-assigned numeric global ids, used to state that a
rendering does not depend on them. -/
def renameGlobalIds (f : Nat → Nat) (a : AppData) : AppData :=
  { a with globals := a.globals.map (fun g => { g with name := f g.name }) }

/-- State invariant established by the first registry round-trip: info lists
and proxy-object lists are created in lock step, and no logical-output
record exists yet (xdg_output proxies are only created in phase 2). -/
def phase1Inv (a : AppData) : Prop :=
  a.xdg_output_managers.length = a.xdg_output_manager_objects.length ∧
  a.outputs.length = a.output_objects.length ∧
  ∀ mgr ∈ a.xdg_output_managers, mgr.outputs = []

/-- Every manager record holds exactly `numO` logical-output records, the one
at position `o` carrying `output_id = o`. -/
def xdgCompleteL (ms : List XdgOutputManagerInfo) (numO : Nat) : Prop :=
  ∀ (m : Nat) (mgr : XdgOutputManagerInfo), ms[m]? = some mgr →
    mgr.outputs.length = numO ∧
    ∀ (o : Nat) (info : XdgOutputInfo), mgr.outputs[o]? = some info →
      info.output_id = o

/-- Frozen snapshot of the spec scenario: one seat with pointer+keyboard
capabilities and repeat 25/600, one output "eDP-1" with a single
1920x1080@60000mHz mode flagged current+preferred. -/
def scenarioApp : AppData :=
  { AppData.new with
      globals := [⟨1, "wl_seat", 7⟩, ⟨2, "wl_output", 4⟩],
      seats := [⟨1, "seat0", ["pointer", "keyboard"], some 25, some 600⟩],
      outputs := [⟨2, "eDP-1", "", 0, 0, 1, 0, 0, "", "", "", "",
        [⟨1920, 1080, 60000, ["current", "preferred"]⟩]⟩] }

/-- Snapshot with a single global carrying numeric id `n`. -/
def oneGlobalApp (n : Nat) : AppData :=
  { AppData.new with globals := [⟨n, "wl_compositor", 6⟩] }

/-- Snapshot with a DRM lease device lacking a device path and two
presentation records, one without and one with a received clock id. -/
def fallbackApp : AppData :=
  { AppData.new with
      globals := [⟨1, "wp_drm_lease_device_v1", 1⟩, ⟨2, "wp_presentation", 1⟩,
        ⟨3, "wp_presentation", 1⟩],
      drm_lease_devices := [⟨1, none, []⟩],
      presentation_info := [⟨2, none⟩, ⟨3, some 7⟩] }

/-- Geometry payload fixture used to instantiate universally quantified
statements. -/
def geomFixture : OutputGeometry :=
  ⟨0, 0, 0, 0, WEnum.unknown 0, WEnum.unknown 0, "", ""⟩

/-- Announcement fixture: one logical-output manager and two outputs. -/
def evsFix : List Announcement :=
  [⟨1, "zxdg_output_manager_v1", 3⟩, ⟨2, "wl_output", 4⟩, ⟨3, "wl_output", 4⟩]

/-- Append one placeholder logical-output record per listed output index. -/
def appendOutputsTo (os : List Nat) (mgr : XdgOutputManagerInfo) :
    XdgOutputManagerInfo :=
  let outputs := mgr.outputs ++ os.map (fun o => ⟨o, "", "", 0, 0, 0, 0⟩)
  { mgr with outputs := outputs }

/-- Apply `appendOutputsTo` to manager `m` (the cumulative effect of repeated
`add_xdg_output` calls). -/
def appendXdgOutputs (ms : List XdgOutputManagerInfo) (m : Nat) (os : List Nat) :
    List XdgOutputManagerInfo :=
  modifyIdx ms m (appendOutputsTo os)

/-! ## Theorems -/

theorem AppData.modeFlagsOf_value_nil (v : Nat) (h1 : v ≠ 1) (h2 : v ≠ 2) :
    AppData.modeFlagsOf (.value v) = [] := by
  match v, h1, h2 with
  | 0, _, _ => rfl
  | n + 3, _, _ => rfl
  | 1, h1, _ => exact absurd rfl h1
  | 2, _, h2 => exact absurd rfl h2

theorem capabilityStrings_value_nil (v : Nat) (h1 : v ≠ 1) (h2 : v ≠ 2)
    (h4 : v ≠ 4) : capabilityStrings (.value v) = [] := by
  match v, h1, h2, h4 with
  | 0, _, _, _ => rfl
  | 3, _, _, _ => rfl
  | 5, _, _, _ => rfl
  | 6, _, _, _ => rfl
  | n + 7, _, _, _ => rfl
  | 1, h, _, _ => exact absurd rfl h
  | 2, _, h, _ => exact absurd rfl h
  | 4, _, _, h => exact absurd rfl h

theorem AppData.subpixelToString_fromWire (v : Nat) (h : 6 ≤ v) :
    AppData.subpixelToString (subpixelFromWire v) = "unknown" := by
  match v, h with
  | n + 6, _ => rfl

theorem AppData.transformToString_fromWire (v : Nat) (h : 8 ≤ v) :
    AppData.transformToString (transformFromWire v) = "normal" := by
  match v, h with
  | n + 8, _ => rfl

theorem AppData.modeFlagsOf_fromWire_nil (v : Nat) (h1 : v ≠ 1) (h2 : v ≠ 2) :
    AppData.modeFlagsOf (modeFromWire v) = [] := by
  unfold modeFromWire
  split
  · exact AppData.modeFlagsOf_value_nil v h1 h2
  · rfl

theorem capabilityStrings_fromWire_nil (v : Nat) (h1 : v ≠ 1) (h2 : v ≠ 2)
    (h4 : v ≠ 4) : capabilityStrings (capabilityFromWire v) = [] := by
  unfold capabilityFromWire
  split
  · exact capabilityStrings_value_nil v h1 h2 h4
  · rfl

/-- C4: unrecognized enumerated wire values never fail and map to fixed
fallbacks: a subpixel value outside the six recognized variants is stored as
"unknown", a transform outside the eight recognized variants as "normal", a
mode-flag value other than current/preferred yields an empty flags list for
the recorded mode, and a seat-capability value outside
{pointer = 1, keyboard = 2, touch = 4} yields an empty capabilities list. -/
theorem unknown_enum_values_fallback :
    (∀ (a : AppData) (i : Nat) (g : OutputGeometry) (v : Nat),
        i < a.outputs.length → 6 ≤ v →
        ((a.update_output_geometry i
            { g with subpixel := subpixelFromWire v }).outputs[i]?).map
          OutputInfo.subpixel_orientation = some "unknown") ∧
    (∀ (a : AppData) (i : Nat) (g : OutputGeometry) (v : Nat),
        i < a.outputs.length → 8 ≤ v →
        ((a.update_output_geometry i
            { g with transform := transformFromWire v }).outputs[i]?).map
          OutputInfo.output_transform = some "normal") ∧
    (∀ (a : AppData) (i : Nat) (v : Nat) (w h r : Int),
        i < a.outputs.length → v ≠ 1 → v ≠ 2 →
        ((a.update_output_mode i (modeFromWire v) w h r).outputs[i]?).bind
          (fun o => o.modes.getLast?) = some ⟨w, h, r, []⟩) ∧
    (∀ (a : AppData) (i : Nat) (v : Nat),
        i < a.seats.length → v ≠ 1 → v ≠ 2 → v ≠ 4 →
        ((step a (.seatCapabilities i (capabilityFromWire v))).seats[i]?).map
          SeatInfo.capabilities = some []) := by
  refine ⟨?_, ?_, ?_, ?_⟩
  · intro a i g v hi hv
    simp [AppData.update_output_geometry, modifyIdx_getElem?,
      List.getElem?_eq_getElem hi, AppData.subpixelToString_fromWire v hv]
  · intro a i g v hi hv
    simp [AppData.update_output_geometry, modifyIdx_getElem?,
      List.getElem?_eq_getElem hi, AppData.transformToString_fromWire v hv]
  · intro a i v w h r hi h1 h2
    simp [AppData.update_output_mode, modifyIdx_getElem?,
      List.getElem?_eq_getElem hi, List.getLast?_concat,
      AppData.modeFlagsOf_fromWire_nil v h1 h2]
  · intro a i v hi h1 h2 h4
    simp [step, AppData.update_seat_capabilities, modifyIdx_getElem?,
      List.getElem?_eq_getElem hi, capabilityStrings_fromWire_nil v h1 h2 h4]

/-- Witness for C4 at concrete inputs: snapshot with one output and one seat,
wire values 9 (subpixel), 11 (transform), 3 (mode flags), 3 (capabilities). -/
theorem unknown_enum_values_fallback_witness :
    ((scenarioApp.update_output_geometry 0
        { geomFixture with subpixel := subpixelFromWire 9 }).outputs[0]?).map
      OutputInfo.subpixel_orientation = some "unknown" ∧
    ((scenarioApp.update_output_geometry 0
        { geomFixture with transform := transformFromWire 11 }).outputs[0]?).map
      OutputInfo.output_transform = some "normal" ∧
    ((scenarioApp.update_output_mode 0 (modeFromWire 3) 800 600 59000).outputs[0]?).bind
      (fun o => o.modes.getLast?) = some ⟨800, 600, 59000, []⟩ ∧
    ((step scenarioApp (.seatCapabilities 0 (capabilityFromWire 3))).seats[0]?).map
      SeatInfo.capabilities = some [] := by
  refine ⟨?_, ?_, ?_, ?_⟩
  · exact unknown_enum_values_fallback.1 scenarioApp 0 geomFixture 9
      (by decide) (by decide)
  · exact unknown_enum_values_fallback.2.1 scenarioApp 0 geomFixture 11
      (by decide) (by decide)
  · exact unknown_enum_values_fallback.2.2.1 scenarioApp 0 3 800 600 59000
      (by decide) (by decide) (by decide)
  · exact unknown_enum_values_fallback.2.2.2 scenarioApp 0 3
      (by decide) (by decide) (by decide) (by decide)

theorem xdg_modify_missing (a : AppData) (m o : Nat)
    (f : XdgOutputInfo → XdgOutputInfo) (h : xdgPairMissing a m o) :
    modifyIdx a.xdg_output_managers m
      (fun mgr =>
        let outputs := modifyIdx mgr.outputs o f
        { mgr with outputs := outputs }) = a.xdg_output_managers := by
  rcases h with h | h
  · exact modifyIdx_oob _ _ _ h
  · refine modifyIdx_eq_self _ _ _ (fun mgr hm => ?_)
    simp [modifyIdx_oob _ _ _ (h mgr hm)]

/-- C3: every collector update keyed by a local index (seat
name/capabilities/repeat, output geometry/mode/scale/name/description, shm
format, presentation clock id, treeland primary output, xdg-output fields)
leaves the entire application state unchanged (and in particular returns
rather than failing) whenever the index, or (manager, output) index pair,
does not refer to an existing record. -/
theorem collector_missing_index_noop (a : AppData) (e : AppEvent)
    (h : eventTargetsMissing a e) : step a e = a := by
  cases e with
  | seatName i name =>
    simp only [eventTargetsMissing] at h
    simp [step, AppData.update_seat_name, modifyIdx_oob _ _ _ h]
  | seatCapabilities i c =>
    simp only [eventTargetsMissing] at h
    simp [step, AppData.update_seat_capabilities, modifyIdx_oob _ _ _ h]
  | keyboardRepeatInfo i rate delay =>
    simp only [eventTargetsMissing] at h
    simp [step, AppData.update_seat_keyboard_repeat, modifyIdx_oob _ _ _ h]
  | outputGeometry i g =>
    simp only [eventTargetsMissing] at h
    simp [step, AppData.update_output_geometry, modifyIdx_oob _ _ _ h]
  | outputMode i flags w hh r =>
    simp only [eventTargetsMissing] at h
    simp [step, AppData.update_output_mode, modifyIdx_oob _ _ _ h]
  | outputScale i factor =>
    simp only [eventTargetsMissing] at h
    simp [step, AppData.update_output_scale, modifyIdx_oob _ _ _ h]
  | outputName i name =>
    simp only [eventTargetsMissing] at h
    simp [step, AppData.update_output_name, modifyIdx_oob _ _ _ h]
  | outputDescription i d =>
    simp only [eventTargetsMissing] at h
    simp [step, AppData.update_output_description, modifyIdx_oob _ _ _ h]
  | shmFormat i format =>
    simp only [eventTargetsMissing] at h
    simp [step, AppData.add_shm_format, modifyIdx_oob _ _ _ h]
  | presentationClockId i clk =>
    simp only [eventTargetsMissing] at h
    simp [step, AppData.update_presentation_clock_id, modifyIdx_oob _ _ _ h]
  | treelandPrimaryOutput i name =>
    simp only [eventTargetsMissing] at h
    simp [step, AppData.update_treeland_primary_output, modifyIdx_oob _ _ _ h]
  | xdgOutputName m o name =>
    simp only [eventTargetsMissing] at h
    simp [step, AppData.update_xdg_output_name, xdg_modify_missing a m o _ h]
  | xdgOutputDescription m o d =>
    simp only [eventTargetsMissing] at h
    simp [step, AppData.update_xdg_output_description, xdg_modify_missing a m o _ h]
  | xdgOutputLogicalPosition m o x y =>
    simp only [eventTargetsMissing] at h
    simp [step, AppData.update_xdg_output_logical_position, xdg_modify_missing a m o _ h]
  | xdgOutputLogicalSize m o w hh =>
    simp only [eventTargetsMissing] at h
    simp [step, AppData.update_xdg_output_logical_size, xdg_modify_missing a m o _ h]

/-- Witness for C3: a repeat-info event for seat index 0 on the empty
snapshot is discarded. -/
theorem collector_missing_index_noop_witness :
    eventTargetsMissing AppData.new (.keyboardRepeatInfo 0 25 600) ∧
    step AppData.new (.keyboardRepeatInfo 0 25 600) = AppData.new :=
  ⟨Nat.le_refl 0,
   collector_missing_index_noop AppData.new (.keyboardRepeatInfo 0 25 600)
     (Nat.le_refl 0)⟩

/-- C5: for the frozen scenario snapshot (one seat with pointer+keyboard,
repeat 25/600; one output "eDP-1", scale 1, one 1920x1080@60000mHz mode
flagged current+preferred), full-detail unsorted text rendering prints, in
order, lines showing `capabilities: pointer keyboard`,
`keyboard repeat rate: 25`, `keyboard repeat delay: 600`,
`x: 0, y: 0, scale: 1`, the mode line
`width: 1920 px, height: 1080 px, refresh: 60.000 Hz`, and
`flags: current preferred`. -/
theorem scenario_full_text_rendering :
    containsInOrder (print_all_info scenarioApp false none)
      ["capabilities: pointer keyboard", "keyboard repeat rate: 25",
       "keyboard repeat delay: 600", "x: 0, y: 0, scale: 1",
       "width: 1920 px, height: 1080 px, refresh: 60.000 Hz",
       "flags: current preferred"] = true := by
  set_option maxRecDepth 10000 in decide

theorem renamed_sortGlobals (f : Nat → Nat) (gl : List GlobalInfo) :
    sortGlobals (gl.map (fun g => { g with name := f g.name })) =
      (sortGlobals gl).map (fun g => { g with name := f g.name }) := by
  unfold sortGlobals
  exact (@List.map_mergeSort GlobalInfo GlobalInfo
    (fun x y => decide (x.interface ≤ y.interface))
    (fun x y => decide (x.interface ≤ y.interface))
    (fun g => { g with name := f g.name }) gl (fun a _ b _ => rfl)).symm

theorem filterPred_comp_rename (f : Nat → Nat) (p : Option String) :
    (filterPred p ∘ fun g => { g with name := f g.name }) = filterPred p := by
  funext g
  cases p <;> rfl

/-- C9 counterexample: with sorting off, basic text rendering prints the
server-assigned numeric id — the second rendered line for a lone global with
id 42 contains `name: 42`, and two snapshots differing only in that numeric
id render differently. -/
theorem basic_text_shows_numeric_id :
    strContains ((print_basic_info (oneGlobalApp 42) false none).getD 1 "")
      "name: 42" = true ∧
    print_basic_info (oneGlobalApp 42) false none ≠
      print_basic_info (oneGlobalApp 43) false none := by
  constructor
  · set_option maxRecDepth 4000 in decide
  · set_option maxRecDepth 4000 in decide

/-- C9 (amended): basic detail JSON renders only interface and version —
`--json --simple` yields exactly a generation timestamp plus
{interface, version} summaries, independent of the numeric ids and with no
per-protocol arrays — and basic text rendering omits the numeric id when
sorting is on (with sorting off it prints the id, see the counterexample). -/
theorem basic_rendering_id_free :
    (∀ (a : AppData) (clock : Option Nat),
        to_json_basic a false none clock =
          ⟨clock.getD 0, a.globals.map (fun g => ⟨g.interface, g.version⟩)⟩) ∧
    (∀ (f : Nat → Nat) (a : AppData) (s : Bool) (p : Option String)
        (clock : Option Nat),
        to_json_basic (renameGlobalIds f a) s p clock =
          to_json_basic a s p clock) ∧
    (∀ (f : Nat → Nat) (a : AppData) (p : Option String),
        print_basic_info (renameGlobalIds f a) true p =
          print_basic_info a true p) := by
  refine ⟨?_, ?_, ?_⟩
  · intro a clock
    unfold to_json_basic
    have hf : List.filter (filterPred none) a.globals = a.globals :=
      List.filter_eq_self.mpr (fun g _ => rfl)
    simp [hf]
  · intro f a s p clock
    unfold to_json_basic renameGlobalIds
    simp only [List.filter_map, filterPred_comp_rename, List.map_map]
    rfl
  · intro f a p
    have hbody : printBasicBody (renameGlobalIds f a) true p =
        printBasicBody a true p := by
      unfold printBasicBody renderedGlobals renameGlobalIds
      simp only [List.filter_map, filterPred_comp_rename, if_true]
      rw [renamed_sortGlobals, List.flatMap_map]
      rfl
    cases p with
    | none => exact hbody
    | some q =>
      simp only [print_basic_info]
      have hany : (renameGlobalIds f a).globals.any (fun g => g.interface == q) =
          a.globals.any (fun g => g.interface == q) := by
        unfold renameGlobalIds
        simp only [List.any_map]
        rfl
      rw [hany, hbody]

/-- C7: when the protocol filter names an interface present in no global
record, text rendering (full or basic) yields only the single
`Protocol not supported: <name>` message, and JSON rendering (full or basic)
yields an empty globals list; the renderers return normally (total
functions), so the run is not treated as an error. -/
theorem unsupported_protocol_filter (a : AppData) (s : Bool)
    (clock : Option Nat) (p : String) (h : ∀ g ∈ a.globals, g.interface ≠ p) :
    print_all_info a s (some p) = ["Protocol not supported: " ++ p] ∧
    print_basic_info a s (some p) = ["Protocol not supported: " ++ p] ∧
    (to_json_output a s (some p) clock).globals = [] ∧
    (to_json_basic a s (some p) clock).globals = [] := by
  have hany : a.globals.any (fun g => g.interface == p) = false := by
    rw [List.any_eq_false]
    intro g hg
    simpa using h g hg
  have hfilter : a.globals.filter (filterPred (some p)) = [] := by
    rw [List.filter_eq_nil_iff]
    intro g hg
    simpa [filterPred] using h g hg
  refine ⟨?_, ?_, ?_, ?_⟩
  · simp [print_all_info, hany]
  · simp [print_basic_info, hany]
  · cases s <;> simp [to_json_output, hfilter, sortGlobals]
  · cases s <;> simp [to_json_basic, hfilter]

/-- Witness for C7, the spec scenario: filtering for `wl_shm` on a snapshot
advertising no shm global. -/
theorem unsupported_protocol_filter_witness :
    (∀ g ∈ scenarioApp.globals, g.interface ≠ "wl_shm") ∧
    print_all_info scenarioApp false (some "wl_shm") =
      ["Protocol not supported: wl_shm"] ∧
    print_basic_info scenarioApp false (some "wl_shm") =
      ["Protocol not supported: wl_shm"] ∧
    (to_json_output scenarioApp false (some "wl_shm") (some 1700000000000)).globals = [] ∧
    (to_json_basic scenarioApp false (some "wl_shm") (some 1700000000000)).globals = [] :=
  ⟨by decide,
   unsupported_protocol_filter scenarioApp false (some 1700000000000) "wl_shm" (by decide)⟩

/-- C8: full JSON output always carries the generation timestamp (0 when the
system clock query fails) and every per-protocol array; without a filter the
arrays are the snapshot's, and with an active filter every array whose
interface does not match the filtered name is emitted as an empty array
rather than omitted (the `JsonOutput` record always contains all eight
fields, so the shape is identical for every snapshot and filter). -/
theorem json_full_output_shape (a : AppData) (s : Bool) (clock : Option Nat)
    (p : String) :
    ((to_json_output a s (some p) clock).generation_timestamp = clock.getD 0 ∧
     (to_json_output a s none clock).generation_timestamp = clock.getD 0 ∧
     (to_json_output a s (some p) none).generation_timestamp = 0) ∧
    ((to_json_output a s none clock).seats = a.seats ∧
     (to_json_output a s none clock).outputs = a.outputs ∧
     (to_json_output a s none clock).shm_info = a.shm_info ∧
     (to_json_output a s none clock).drm_lease_devices = a.drm_lease_devices ∧
     (to_json_output a s none clock).presentation_info = a.presentation_info ∧
     (to_json_output a s none clock).treeland_output_managers =
       a.treeland_output_managers ∧
     (to_json_output a s none clock).xdg_output_managers =
       a.xdg_output_managers) ∧
    ((p ≠ "wl_seat" → (to_json_output a s (some p) clock).seats = []) ∧
     (p ≠ "wl_output" → (to_json_output a s (some p) clock).outputs = []) ∧
     (p ≠ "wl_shm" → (to_json_output a s (some p) clock).shm_info = []) ∧
     (p ≠ "wp_drm_lease_device_v1" →
       (to_json_output a s (some p) clock).drm_lease_devices = []) ∧
     (p ≠ "wp_presentation" →
       (to_json_output a s (some p) clock).presentation_info = []) ∧
     (p ≠ "treeland_output_manager_v1" →
       (to_json_output a s (some p) clock).treeland_output_managers = []) ∧
     (p ≠ "zxdg_output_manager_v1" →
       (to_json_output a s (some p) clock).xdg_output_managers = [])) := by
  refine ⟨⟨rfl, rfl, rfl⟩, ⟨rfl, rfl, rfl, rfl, rfl, rfl, rfl⟩,
    ⟨?_, ?_, ?_, ?_, ?_, ?_, ?_⟩⟩ <;>
    intro hne <;> simp [to_json_output, hne]

/-- Witness for C8 at concrete inputs: filter `wl_compositor` matches none of
the per-protocol arrays, and a failed clock yields timestamp 0. -/
theorem json_full_output_shape_witness :
    (to_json_output scenarioApp true (some "wl_compositor") none).generation_timestamp = 0 ∧
    (to_json_output scenarioApp true (some "wl_compositor") none).seats = [] ∧
    (to_json_output scenarioApp true (some "wl_compositor") none).outputs = [] := by
  refine ⟨(json_full_output_shape scenarioApp true none "wl_compositor").1.2.2, ?_, ?_⟩
  · exact (json_full_output_shape scenarioApp true none "wl_compositor").2.2.1 (by decide)
  · exact (json_full_output_shape scenarioApp true none "wl_compositor").2.2.2.1 (by decide)

theorem mem_print_all_detail (a : AppData) (g : GlobalInfo) (line : String)
    (hg : g ∈ a.globals) (hline : line ∈ detailLines a g) :
    line ∈ print_all_info a false none := by
  show line ∈ printAllBody a false none
  unfold printAllBody
  refine List.mem_cons_of_mem _ (List.mem_flatMap.mpr ⟨g, ?_, ?_⟩)
  · unfold renderedGlobals
    simp only [if_neg Bool.false_ne_true]
    exact List.mem_filter.mpr ⟨hg, rfl⟩
  · exact List.mem_cons_of_mem _ hline

/-- C10: in full text rendering, missing secondary data is replaced by
fabricated constants — a wp_drm_lease_device_v1 record with no received
device path prints `path: /dev/dri/card1`, a wp_presentation record with no
received clock id prints `presentation clock id: 1 (CLOCK_MONOTONIC)`, and a
received clock id `c` is printed as `presentation clock id: c
(CLOCK_MONOTONIC)` whatever its value. -/
theorem fabricated_detail_constants (a : AppData) (g : GlobalInfo)
    (hg : g ∈ a.globals) :
    (∀ d, g.interface = "wp_drm_lease_device_v1" →
      a.drm_lease_devices.find? (fun d => d.name == g.name) = some d →
      d.device_path = none →
      "        path: /dev/dri/card1" ∈ print_all_info a false none) ∧
    (∀ p, g.interface = "wp_presentation" →
      a.presentation_info.find? (fun p => p.name == g.name) = some p →
      (p.clock_id = none →
        "        presentation clock id: 1 (CLOCK_MONOTONIC)" ∈
          print_all_info a false none) ∧
      (∀ c, p.clock_id = some c →
        ("        presentation clock id: " ++ toString c ++ " (CLOCK_MONOTONIC)") ∈
          print_all_info a false none)) := by
  constructor
  · intro d hi hfind hpath
    have hmem : "        path: /dev/dri/card1" ∈ drmDetailLines a g := by
      unfold drmDetailLines
      rw [if_pos (by simp [hi]), hfind]
      simp [hpath]
    refine mem_print_all_detail a g _ hg ?_
    simp only [detailLines, List.mem_append]
    tauto
  · intro p hi hfind
    constructor
    · intro hclk
      have hmem : "        presentation clock id: 1 (CLOCK_MONOTONIC)" ∈
          presentationDetailLines a g := by
        unfold presentationDetailLines
        rw [if_pos (by simp [hi]), hfind]
        simp [hclk]
      refine mem_print_all_detail a g _ hg ?_
      simp only [detailLines, List.mem_append]
      tauto
    · intro c hclk
      have hmem : ("        presentation clock id: " ++ toString c ++
          " (CLOCK_MONOTONIC)") ∈ presentationDetailLines a g := by
        unfold presentationDetailLines
        rw [if_pos (by simp [hi]), hfind]
        simp [hclk]
      refine mem_print_all_detail a g _ hg ?_
      simp only [detailLines, List.mem_append]
      tauto

/-- Witness for C10 on a concrete snapshot: one pathless DRM lease device and
two presentation records, without and with a received clock id (7). -/
theorem fabricated_detail_constants_witness :
    "        path: /dev/dri/card1" ∈ print_all_info fallbackApp false none ∧
    "        presentation clock id: 1 (CLOCK_MONOTONIC)" ∈
      print_all_info fallbackApp false none ∧
    "        presentation clock id: 7 (CLOCK_MONOTONIC)" ∈
      print_all_info fallbackApp false none := by
  refine ⟨?_, ?_, ?_⟩
  · exact (fabricated_detail_constants fallbackApp ⟨1, "wp_drm_lease_device_v1", 1⟩
      (by decide)).1 ⟨1, none, []⟩ rfl (by decide) rfl
  · exact ((fabricated_detail_constants fallbackApp ⟨2, "wp_presentation", 1⟩
      (by decide)).2 ⟨2, none⟩ rfl (by decide)).1 rfl
  · exact ((fabricated_detail_constants fallbackApp ⟨3, "wp_presentation", 1⟩
      (by decide)).2 ⟨3, some 7⟩ rfl (by decide)).2 7 rfl

theorem registryGlobal_globals (a : AppData) (e : Announcement) :
    (registryGlobal a e).globals =
      a.globals ++ [⟨e.name, e.interface, e.version⟩] := by
  unfold registryGlobal
  simp only [AppData.add_seat, AppData.add_output, AppData.add_shm,
    AppData.add_drm_lease_device, AppData.add_presentation,
    AppData.add_treeland_output_manager, AppData.add_xdg_output_manager,
    AppData.add_global]
  congr 1
  repeat' split
  all_goals rfl

theorem foldl_registryGlobal_globals (evs : List Announcement) (a : AppData) :
    (evs.foldl registryGlobal a).globals =
      a.globals ++ evs.map (fun e => ⟨e.name, e.interface, e.version⟩) := by
  induction evs generalizing a with
  | nil => simp
  | cons e es ih => simp [ih, registryGlobal_globals]

theorem sortByInterface_trans :
    ∀ (a b c : GlobalInfo), (decide (a.interface ≤ b.interface)) →
      (decide (b.interface ≤ c.interface)) →
      (decide (a.interface ≤ c.interface)) := by
  intro a b c hab hbc
  simp only [decide_eq_true_eq] at *
  exact le_trans hab hbc

theorem sortByInterface_total :
    ∀ (a b : GlobalInfo), (decide (a.interface ≤ b.interface)) ||
      (decide (b.interface ≤ a.interface)) := by
  intro a b
  simpa [Bool.or_eq_true, decide_eq_true_eq] using le_total a.interface b.interface

/-- C6: rendered globals preserve announcement order when sorting is off
(the registry listener appends each announcement in order and the unsorted
renderer iterates the filtered list as is); with sorting on the rendered
sequence is the stable lexicographic-by-interface sort of the same list
(sorted, and every interface class keeps its discovery order), and the
sorted text header omits the numeric id (it is invariant under changing the
id). -/
theorem globals_order_and_sorting :
    (∀ evs : List Announcement, (processAnnouncements evs).globals =
        evs.map (fun e => ⟨e.name, e.interface, e.version⟩)) ∧
    (∀ (a : AppData) (p : Option String),
        renderedGlobals a false p = a.globals.filter (filterPred p)) ∧
    (∀ a : AppData, renderedGlobals a false none = a.globals) ∧
    (∀ (a : AppData) (p : Option String),
        renderedGlobals a true p = sortGlobals (a.globals.filter (filterPred p))) ∧
    (∀ gl : List GlobalInfo,
        (sortGlobals gl).Pairwise (fun x y => x.interface ≤ y.interface)) ∧
    (∀ (gl : List GlobalInfo) (s : String),
        (sortGlobals gl).filter (fun g => g.interface == s) =
          gl.filter (fun g => g.interface == s)) ∧
    (∀ (g : GlobalInfo) (n : Nat),
        globalHeaderLine true { g with name := n } = globalHeaderLine true g) := by
  refine ⟨?_, ?_, ?_, ?_, ?_, ?_, ?_⟩
  · intro evs
    simpa using foldl_registryGlobal_globals evs AppData.new
  · intro a p
    rfl
  · intro a
    show a.globals.filter (filterPred none) = a.globals
    exact List.filter_eq_self.mpr (fun _ _ => rfl)
  · intro a p
    rfl
  · intro gl
    have h := List.sorted_mergeSort sortByInterface_trans sortByInterface_total gl
    exact h.imp (fun hb => by simpa using hb)
  · intro gl s
    have hmem : ∀ x ∈ gl.filter (fun g => g.interface == s), x.interface = s :=
      fun x hx => by simpa using (List.mem_filter.mp hx).2
    have hpair : (gl.filter (fun g => g.interface == s)).Pairwise
        (fun x y => decide (x.interface ≤ y.interface) = true) := by
      refine List.pairwise_of_forall_mem_list (fun x hx y hy => ?_)
      rw [hmem x hx, hmem y hy]
      simp
    have hsub := List.sublist_mergeSort sortByInterface_trans sortByInterface_total
      hpair (List.filter_sublist gl)
    have hsub2 := hsub.filter (fun g => g.interface == s)
    rw [List.filter_filter] at hsub2
    simp only [Bool.and_self] at hsub2
    have hperm := (List.mergeSort_perm gl
      (fun x y => decide (x.interface ≤ y.interface))).filter
      (fun g => g.interface == s)
    exact (hsub2.eq_of_length hperm.length_eq.symm).symm
  · intro g n
    rfl

theorem kb_barrier_append {l m : List OrchAction}
    (hl : ∀ (k s : Nat), l[k]? = some (.bindKeyboard s) → l[k+1]? = some .roundtrip)
    (hm : ∀ (k s : Nat), m[k]? = some (.bindKeyboard s) → m[k+1]? = some .roundtrip) :
    ∀ (k s : Nat), (l ++ m)[k]? = some (.bindKeyboard s) →
      (l ++ m)[k+1]? = some .roundtrip := by
  intro k s hk
  by_cases hkl : k < l.length
  · rw [List.getElem?_append, if_pos hkl] at hk
    have hnext := hl k s hk
    have hlt : k + 1 < l.length := by
      by_contra hge
      rw [List.getElem?_eq_none (by omega)] at hnext
      exact Option.noConfusion hnext
    rw [List.getElem?_append, if_pos hlt]
    exact hnext
  · have hge : l.length ≤ k := by omega
    rw [List.getElem?_append_right hge] at hk
    have hnext := hm (k - l.length) s hk
    rw [List.getElem?_append_right (by omega)]
    have : k + 1 - l.length = k - l.length + 1 := by omega
    rw [this]
    exact hnext

theorem kb_barrier_of_no_kb {l : List OrchAction}
    (h : ∀ x ∈ l, ∀ s, x ≠ OrchAction.bindKeyboard s) :
    ∀ (k s : Nat), l[k]? = some (.bindKeyboard s) → l[k+1]? = some .roundtrip := by
  intro k s hk
  exact absurd rfl (h _ (List.getElem?_mem hk) s)

theorem kb_barrier_seatPhase (n : Nat) :
    ∀ (k s : Nat),
      ((List.range n).flatMap (fun i => [OrchAction.bindKeyboard i,
        OrchAction.roundtrip]))[k]? = some (.bindKeyboard s) →
      ((List.range n).flatMap (fun i => [OrchAction.bindKeyboard i,
        OrchAction.roundtrip]))[k+1]? = some .roundtrip := by
  induction n with
  | zero => intro k s hk; simp at hk
  | succ n ih =>
    rw [List.range_succ, List.flatMap_append]
    refine kb_barrier_append ih ?_
    intro k s hk
    match k, hk with
    | 0, _ => rfl
    | 1, hk => simp at hk
    | k + 2, hk => simp at hk

theorem seatPhase_count_kb (n s : Nat) :
    ((List.range n).flatMap (fun i => [OrchAction.bindKeyboard i,
      OrchAction.roundtrip])).count (.bindKeyboard s) =
      if s < n then 1 else 0 := by
  induction n with
  | zero => simp
  | succ n ih =>
    rw [List.range_succ, List.flatMap_append, List.count_append, ih]
    by_cases h : s < n
    · have hne : (OrchAction.bindKeyboard n == OrchAction.bindKeyboard s) = false := by
        simp only [beq_eq_false_iff_ne, ne_eq, OrchAction.bindKeyboard.injEq]
        omega
      simp [List.count_cons, hne, if_pos h, if_pos (by omega : s < n + 1)]
    · by_cases hsn : s = n
      · subst hsn
        simp [List.count_cons, if_neg h, if_pos (by omega : s < s + 1)]
      · have hne : (OrchAction.bindKeyboard n == OrchAction.bindKeyboard s) = false := by
          simp only [beq_eq_false_iff_ne, ne_eq, OrchAction.bindKeyboard.injEq]
          omega
        simp [List.count_cons, hne, if_neg h, if_neg (by omega : ¬ s < n + 1)]

theorem seatPhase_count_rt (n : Nat) :
    ((List.range n).flatMap (fun i => [OrchAction.bindKeyboard i,
      OrchAction.roundtrip])).count .roundtrip = n := by
  induction n with
  | zero => simp
  | succ n ih =>
    rw [List.range_succ, List.flatMap_append, List.count_append, ih]
    simp [List.count_cons]

theorem xdgPhase_no_kb_no_rt (nm no : Nat) :
    ∀ x ∈ (List.range nm).flatMap
      (fun m => (List.range no).map (fun o => OrchAction.bindXdgOutput m o)),
      (∀ s, x ≠ OrchAction.bindKeyboard s) ∧ x ≠ OrchAction.roundtrip := by
  intro x hx
  simp only [List.mem_flatMap, List.mem_map] at hx
  obtain ⟨m, -, o, -, rfl⟩ := hx
  exact ⟨fun s h => OrchAction.noConfusion h, fun h => OrchAction.noConfusion h⟩

/-- C1: after the initial registry round-trip (the trace starts with the
registry request and one barrier), the orchestrator binds one keyboard per
discovered seat — exactly one bind per seat index below `ns` — and every
keyboard bind is immediately followed by a round-trip barrier (per-seat
barriers, not one barrier after all binds); the trace then ends with exactly
5 additional round-trip barriers issuing no requests, followed by rendering,
and the total barrier count is 1 + ns + 5. -/
theorem orchestrator_barrier_schedule (nm no ns : Nat) :
    (mainActions nm no ns).take 2 = [.getRegistry, .roundtrip] ∧
    (∀ (k s : Nat), (mainActions nm no ns)[k]? = some (.bindKeyboard s) →
      (mainActions nm no ns)[k+1]? = some .roundtrip) ∧
    (∀ s : Nat, (mainActions nm no ns).count (.bindKeyboard s) =
      if s < ns then 1 else 0) ∧
    (∃ p, mainActions nm no ns =
        p ++ (List.replicate 5 .roundtrip ++ [.render]) ∧
      p.count .roundtrip = 1 + ns) ∧
    (mainActions nm no ns).count .roundtrip = 1 + ns + 5 := by
  have hA : ∀ (k s : Nat),
      ([OrchAction.getRegistry, OrchAction.roundtrip])[k]? =
        some (.bindKeyboard s) →
      ([OrchAction.getRegistry, OrchAction.roundtrip])[k+1]? =
        some .roundtrip := by
    intro k s hk
    match k, hk with
    | 0, hk => simp at hk
    | 1, hk => simp at hk
    | k + 2, hk => simp at hk
  have hB := kb_barrier_of_no_kb
    (fun x hx s => (xdgPhase_no_kb_no_rt nm no x hx).1 s)
  have hD : ∀ (k s : Nat),
      (List.replicate 5 OrchAction.roundtrip)[k]? = some (.bindKeyboard s) →
      (List.replicate 5 OrchAction.roundtrip)[k+1]? = some .roundtrip := by
    refine kb_barrier_of_no_kb (fun x hx s => ?_)
    rw [List.eq_of_mem_replicate hx]
    exact fun h => OrchAction.noConfusion h
  have hE : ∀ (k s : Nat),
      ([OrchAction.render])[k]? = some (.bindKeyboard s) →
      ([OrchAction.render])[k+1]? = some .roundtrip := by
    refine kb_barrier_of_no_kb (fun x hx s => ?_)
    rw [List.eq_of_mem_singleton hx]
    exact fun h => OrchAction.noConfusion h
  have hkbA : ∀ s : Nat,
      ([OrchAction.getRegistry, OrchAction.roundtrip]).count
        (OrchAction.bindKeyboard s) = 0 := by
    intro s
    refine List.count_eq_zero.mpr ?_
    simp
  have hkbB : ∀ s : Nat,
      ((List.range nm).flatMap (fun m => (List.range no).map
        (fun o => OrchAction.bindXdgOutput m o))).count
        (OrchAction.bindKeyboard s) = 0 := by
    intro s
    exact List.count_eq_zero.mpr
      (fun hmem => (xdgPhase_no_kb_no_rt nm no _ hmem).1 s rfl)
  have hrtB : ((List.range nm).flatMap (fun m => (List.range no).map
      (fun o => OrchAction.bindXdgOutput m o))).count OrchAction.roundtrip = 0 :=
    List.count_eq_zero.mpr
      (fun hmem => (xdgPhase_no_kb_no_rt nm no _ hmem).2 rfl)
  refine ⟨rfl, ?_, ?_, ?_, ?_⟩
  · exact kb_barrier_append (kb_barrier_append (kb_barrier_append
      (kb_barrier_append hA hB) (kb_barrier_seatPhase ns)) hD) hE
  · intro s
    unfold mainActions
    simp only [List.count_append, hkbA, hkbB, seatPhase_count_kb]
    have h1 : (List.replicate 5 OrchAction.roundtrip).count
        (OrchAction.bindKeyboard s) = 0 :=
      List.count_eq_zero.mpr (by simp [List.mem_replicate])
    have h2 : ([OrchAction.render]).count (OrchAction.bindKeyboard s) = 0 :=
      List.count_eq_zero.mpr (by simp)
    rw [h1, h2]
    omega
  · refine ⟨[OrchAction.getRegistry, OrchAction.roundtrip] ++
      (List.range nm).flatMap (fun m => (List.range no).map
        (fun o => OrchAction.bindXdgOutput m o)) ++
      (List.range ns).flatMap (fun s =>
        [OrchAction.bindKeyboard s, OrchAction.roundtrip]), ?_, ?_⟩
    · unfold mainActions
      simp [List.append_assoc]
    · have h2 : List.count OrchAction.roundtrip
          [OrchAction.getRegistry, OrchAction.roundtrip] = 1 := by decide
      simp only [List.count_append, hrtB, seatPhase_count_rt, h2]
  · unfold mainActions
    have h2 : List.count OrchAction.roundtrip
        [OrchAction.getRegistry, OrchAction.roundtrip] = 1 := by decide
    have h3 : List.count OrchAction.roundtrip [OrchAction.render] = 0 := by decide
    simp only [List.count_append, hrtB, seatPhase_count_rt,
      List.count_replicate_self, h2, h3]

/-- Witness for C1 with one manager, two outputs, two seats: the first
keyboard bind sits at index 4 and is immediately followed by a barrier, and
seat 0 is bound exactly once. -/
theorem orchestrator_barrier_schedule_witness :
    (mainActions 1 2 2)[4]? = some (.bindKeyboard 0) ∧
    (mainActions 1 2 2)[5]? = some .roundtrip ∧
    (mainActions 1 2 2).count (.bindKeyboard 0) = 1 := by
  refine ⟨by decide, (orchestrator_barrier_schedule 1 2 2).2.1 4 0 (by decide), ?_⟩
  have h := (orchestrator_barrier_schedule 1 2 2).2.2.1 0
  simpa using h

theorem modifyIdx_modifyIdx (l : List α) (n : Nat) (f g : α → α) :
    modifyIdx (modifyIdx l n f) n g = modifyIdx l n (fun x => g (f x)) := by
  induction l generalizing n with
  | nil => rfl
  | cons a as ih =>
    cases n with
    | zero => rfl
    | succ n => simp [modifyIdx, ih]

theorem foldl_add_xdg_output (os : List Nat) (a : AppData) (m : Nat) :
    os.foldl (fun acc o => acc.add_xdg_output m o) a =
      { a with xdg_output_managers := appendXdgOutputs a.xdg_output_managers m os } := by
  induction os generalizing a with
  | nil =>
    have h : appendXdgOutputs a.xdg_output_managers m [] = a.xdg_output_managers :=
      modifyIdx_eq_self _ _ _ (fun x _ => by simp [appendOutputsTo])
    simp [h]
  | cons o os ih =>
    rw [List.foldl_cons, ih]
    simp only [AppData.add_xdg_output, appendXdgOutputs, appendOutputsTo,
      modifyIdx_modifyIdx]
    have hfun : ∀ l : List XdgOutputInfo,
        l ++ [(⟨o, "", "", 0, 0, 0, 0⟩ : XdgOutputInfo)] ++
          os.map (fun i => (⟨i, "", "", 0, 0, 0, 0⟩ : XdgOutputInfo)) =
        l ++ (o :: os).map (fun i => (⟨i, "", "", 0, 0, 0, 0⟩ : XdgOutputInfo)) :=
      fun l => by simp
    simp only [hfun]
    rfl

theorem appendXdgOutputs_length (ms : List XdgOutputManagerInfo) (m : Nat)
    (os : List Nat) : (appendXdgOutputs ms m os).length = ms.length := by
  unfold appendXdgOutputs
  exact length_modifyIdx _ _ _

theorem appendXdgOutputs_getElem? (ms : List XdgOutputManagerInfo)
    (m : Nat) (os : List Nat) (j : Nat) :
    (appendXdgOutputs ms m os)[j]? =
      if j = m then ms[j]?.map (appendOutputsTo os) else ms[j]? := by
  unfold appendXdgOutputs
  exact modifyIdx_getElem? _ _ _ _

theorem foldl_range_add_managers (numO k : Nat) (a : AppData) (j : Nat) :
    (((List.range k).foldl (fun acc m => (List.range numO).foldl
      (fun acc2 o => acc2.add_xdg_output m o) acc) a).xdg_output_managers)[j]? =
    if j < k then
      a.xdg_output_managers[j]?.map (appendOutputsTo (List.range numO))
    else a.xdg_output_managers[j]? := by
  induction k with
  | zero => simp
  | succ k ih =>
    rw [List.range_succ, List.foldl_append, List.foldl_cons, List.foldl_nil,
      foldl_add_xdg_output]
    show (appendXdgOutputs _ k _)[j]? = _
    rw [appendXdgOutputs_getElem?]
    by_cases hjk : j = k
    · subst hjk
      rw [if_pos rfl, ih, if_neg (by omega), if_pos (by omega)]
    · rw [if_neg hjk, ih]
      by_cases hlt : j < k
      · rw [if_pos hlt, if_pos (by omega)]
      · rw [if_neg hlt, if_neg (by omega)]

theorem foldl_range_add_length (numO k : Nat) (a : AppData) :
    (((List.range k).foldl (fun acc m => (List.range numO).foldl
      (fun acc2 o => acc2.add_xdg_output m o) acc) a).xdg_output_managers).length =
    a.xdg_output_managers.length := by
  induction k with
  | zero => simp
  | succ k ih =>
    rw [List.range_succ, List.foldl_append, List.foldl_cons, List.foldl_nil,
      foldl_add_xdg_output]
    show (appendXdgOutputs _ k _).length = _
    rw [appendXdgOutputs_length, ih]

theorem foldl_range_add_other_fields (numO k : Nat) (a : AppData) :
    let r := (List.range k).foldl (fun acc m => (List.range numO).foldl
      (fun acc2 o => acc2.add_xdg_output m o) acc) a
    r.outputs = a.outputs ∧ r.output_objects = a.output_objects ∧
      r.xdg_output_manager_objects = a.xdg_output_manager_objects := by
  induction k with
  | zero => exact ⟨rfl, rfl, rfl⟩
  | succ k ih =>
    rw [List.range_succ, List.foldl_append, List.foldl_cons, List.foldl_nil,
      foldl_add_xdg_output]
    exact ih

theorem forall_mem_modifyIdx {P : α → Prop} (l : List α) (n : Nat) (f : α → α)
    (h : ∀ x ∈ l, P x) (hf : ∀ x ∈ l, P (f x)) :
    ∀ x ∈ modifyIdx l n f, P x := by
  induction l generalizing n with
  | nil => intro x hx; simp [modifyIdx] at hx
  | cons a as ih =>
    cases n with
    | zero =>
      intro x hx
      rcases List.mem_cons.mp hx with rfl | hx
      · exact hf a (List.mem_cons_self a as)
      · exact h x (List.mem_cons_of_mem a hx)
    | succ n =>
      intro x hx
      rcases List.mem_cons.mp hx with rfl | hx
      · exact h x (List.mem_cons_self x as)
      · exact ih n (fun y hy => h y (List.mem_cons_of_mem a hy))
          (fun y hy => hf y (List.mem_cons_of_mem a hy)) x hx

theorem registryGlobal_phase1Inv (a : AppData) (e : Announcement)
    (h : phase1Inv a) : phase1Inv (registryGlobal a e) := by
  obtain ⟨h1, h2, h3⟩ := h
  unfold registryGlobal
  simp only [AppData.add_seat, AppData.add_output, AppData.add_shm,
    AppData.add_drm_lease_device, AppData.add_presentation,
    AppData.add_treeland_output_manager, AppData.add_xdg_output_manager,
    AppData.add_global]
  unfold phase1Inv
  repeat' split
  all_goals refine ⟨by simp [h1], by simp [h2], ?_⟩
  all_goals intro mgr hm
  all_goals try exact h3 mgr hm
  rcases List.mem_append.mp hm with hm | hm
  · exact h3 mgr hm
  · rw [List.mem_singleton.mp hm]

theorem processAnnouncements_phase1Inv (evs : List Announcement) :
    phase1Inv (processAnnouncements evs) := by
  have hgen : ∀ a, phase1Inv a → phase1Inv (evs.foldl registryGlobal a) := by
    induction evs with
    | nil => exact fun a ha => ha
    | cons e es ih =>
      intro a ha
      exact ih _ (registryGlobal_phase1Inv a e ha)
  refine hgen AppData.new ⟨rfl, rfl, ?_⟩
  intro mgr hm
  simp [AppData.new] at hm

theorem step_phase1Inv (a : AppData) (e : AppEvent) (h : phase1Inv a) :
    phase1Inv (step a e) := by
  obtain ⟨h1, h2, h3⟩ := h
  cases e with
  | seatName i name =>
    exact ⟨h1, h2, h3⟩
  | seatCapabilities i c =>
    exact ⟨h1, h2, h3⟩
  | keyboardRepeatInfo i rate delay =>
    exact ⟨h1, h2, h3⟩
  | outputGeometry i g =>
    exact ⟨h1, by simpa [step, AppData.update_output_geometry, length_modifyIdx]
      using h2, h3⟩
  | outputMode i flags w hh r =>
    exact ⟨h1, by simpa [step, AppData.update_output_mode, length_modifyIdx]
      using h2, h3⟩
  | outputScale i factor =>
    exact ⟨h1, by simpa [step, AppData.update_output_scale, length_modifyIdx]
      using h2, h3⟩
  | outputName i name =>
    exact ⟨h1, by simpa [step, AppData.update_output_name, length_modifyIdx]
      using h2, h3⟩
  | outputDescription i d =>
    exact ⟨h1, by simpa [step, AppData.update_output_description, length_modifyIdx]
      using h2, h3⟩
  | shmFormat i format =>
    exact ⟨h1, h2, h3⟩
  | presentationClockId i clk =>
    exact ⟨h1, h2, h3⟩
  | treelandPrimaryOutput i name =>
    exact ⟨h1, h2, h3⟩
  | xdgOutputName m o name =>
    refine ⟨by simpa [step, AppData.update_xdg_output_name, length_modifyIdx]
      using h1, h2, ?_⟩
    refine forall_mem_modifyIdx _ _ _ h3 (fun x hx => ?_)
    simp [h3 x hx, modifyIdx_nil]
  | xdgOutputDescription m o d =>
    refine ⟨by simpa [step, AppData.update_xdg_output_description, length_modifyIdx]
      using h1, h2, ?_⟩
    refine forall_mem_modifyIdx _ _ _ h3 (fun x hx => ?_)
    simp [h3 x hx, modifyIdx_nil]
  | xdgOutputLogicalPosition m o x y =>
    refine ⟨by simpa [step, AppData.update_xdg_output_logical_position, length_modifyIdx]
      using h1, h2, ?_⟩
    refine forall_mem_modifyIdx _ _ _ h3 (fun z hz => ?_)
    simp [h3 z hz, modifyIdx_nil]
  | xdgOutputLogicalSize m o w hh =>
    refine ⟨by simpa [step, AppData.update_xdg_output_logical_size, length_modifyIdx]
      using h1, h2, ?_⟩
    refine forall_mem_modifyIdx _ _ _ h3 (fun z hz => ?_)
    simp [h3 z hz, modifyIdx_nil]

theorem xdgCompleteL_modify (ms : List XdgOutputManagerInfo) (numO m o : Nat)
    (f : XdgOutputInfo → XdgOutputInfo)
    (hf : ∀ x, (f x).output_id = x.output_id) (h : xdgCompleteL ms numO) :
    xdgCompleteL (modifyIdx ms m (fun mgr =>
      { mgr with outputs := modifyIdx mgr.outputs o f })) numO := by
  intro j mgr hj
  rw [modifyIdx_getElem?] at hj
  by_cases hjm : j = m
  · rw [if_pos hjm] at hj
    obtain ⟨mgr0, hm0, rfl⟩ := Option.map_eq_some'.mp hj
    obtain ⟨hlen, hid⟩ := h j mgr0 hm0
    refine ⟨by simpa [length_modifyIdx] using hlen, ?_⟩
    intro oo info hinfo
    simp only at hinfo
    rw [modifyIdx_getElem?] at hinfo
    by_cases hoo : oo = o
    · rw [if_pos hoo] at hinfo
      obtain ⟨info0, hi0, rfl⟩ := Option.map_eq_some'.mp hinfo
      rw [hf]
      exact hid oo info0 hi0
    · rw [if_neg hoo] at hinfo
      exact hid oo info hinfo
  · rw [if_neg hjm] at hj
    exact h j mgr hj

theorem step_xdgCompleteL (a : AppData) (e : AppEvent) (numO : Nat)
    (h : xdgCompleteL a.xdg_output_managers numO) :
    xdgCompleteL (step a e).xdg_output_managers numO := by
  cases e with
  | xdgOutputName m o name =>
    exact xdgCompleteL_modify _ numO m o _ (fun x => rfl) h
  | xdgOutputDescription m o d =>
    exact xdgCompleteL_modify _ numO m o _ (fun x => rfl) h
  | xdgOutputLogicalPosition m o x y =>
    exact xdgCompleteL_modify _ numO m o _ (fun x => rfl) h
  | xdgOutputLogicalSize m o w hh =>
    exact xdgCompleteL_modify _ numO m o _ (fun x => rfl) h
  | seatName i name => exact h
  | seatCapabilities i c => exact h
  | keyboardRepeatInfo i rate delay => exact h
  | outputGeometry i g => exact h
  | outputMode i flags w hh r => exact h
  | outputScale i factor => exact h
  | outputName i name => exact h
  | outputDescription i d => exact h
  | shmFormat i format => exact h
  | presentationClockId i clk => exact h
  | treelandPrimaryOutput i name => exact h

theorem step_xdg_managers_length (a : AppData) (e : AppEvent) :
    (step a e).xdg_output_managers.length = a.xdg_output_managers.length := by
  cases e <;>
    simp [step, AppData.update_seat_name, AppData.update_seat_capabilities,
      AppData.update_seat_keyboard_repeat, AppData.update_output_geometry,
      AppData.update_output_mode, AppData.update_output_scale,
      AppData.update_output_name, AppData.update_output_description,
      AppData.add_shm_format, AppData.update_presentation_clock_id,
      AppData.update_treeland_primary_output, AppData.update_xdg_output_name,
      AppData.update_xdg_output_description,
      AppData.update_xdg_output_logical_position,
      AppData.update_xdg_output_logical_size, length_modifyIdx]

theorem foldl_step_xdgCompleteL (evs : List AppEvent) (a : AppData)
    (numO : Nat) (h : xdgCompleteL a.xdg_output_managers numO) :
    xdgCompleteL ((evs.foldl step a).xdg_output_managers) numO := by
  induction evs generalizing a with
  | nil => exact h
  | cons e es ih => exact ih _ (step_xdgCompleteL a e numO h)

theorem foldl_step_xdg_managers_length (evs : List AppEvent) (a : AppData) :
    ((evs.foldl step a).xdg_output_managers).length =
      a.xdg_output_managers.length := by
  induction evs generalizing a with
  | nil => rfl
  | cons e es ih => rw [List.foldl_cons, ih, step_xdg_managers_length]

theorem foldl_step_phase1Inv (evs : List AppEvent) (a : AppData)
    (h : phase1Inv a) : phase1Inv (evs.foldl step a) := by
  induction evs generalizing a with
  | nil => exact h
  | cons e es ih => exact ih _ (step_phase1Inv a e h)

theorem phase2_xdgComplete (a : AppData) (h : phase1Inv a) :
    (phase2 a).xdg_output_managers.length = a.xdg_output_managers.length ∧
    xdgCompleteL (phase2 a).xdg_output_managers a.outputs.length := by
  obtain ⟨h1, h2, h3⟩ := h
  constructor
  · simp only [phase2]
    rw [foldl_range_add_length]
  · intro j mgr hj
    simp only [phase2] at hj
    rw [foldl_range_add_managers] at hj
    simp only at hj
    by_cases hjm : j < a.xdg_output_manager_objects.length
    · rw [if_pos hjm] at hj
      obtain ⟨mgr0, hm0, rfl⟩ := Option.map_eq_some'.mp hj
      have hempty : mgr0.outputs = [] := h3 mgr0 (List.getElem?_mem hm0)
      constructor
      · simp [appendOutputsTo, hempty, h2]
      · intro o info hinfo
        simp only [appendOutputsTo, hempty, List.nil_append] at hinfo
        rw [List.getElem?_map] at hinfo
        by_cases ho : o < a.output_objects.length
        · rw [List.getElem?_range ho] at hinfo
          simp only [Option.map_some', Option.some.injEq] at hinfo
          rw [← hinfo]
        · rw [List.getElem?_eq_none (by simpa using ho)] at hinfo
          exact Option.noConfusion hinfo
    · rw [if_neg hjm] at hj
      rw [List.getElem?_eq_none (by omega)] at hj
      exact Option.noConfusion hj

/-- C2: starting from the registry round-trip (any announcement sequence
followed by any events delivered during that barrier), phase 2 creates
exactly one logical-output record per (manager, output) pair — every manager
record then holds one record per known output, the record at position `o`
carrying `output_id = o`, so it is addressable by the output's local index —
no other records exist (the manager count is unchanged and each outputs list
has exactly one entry per output), and no later event removes any of them. -/
theorem xdg_output_pairing (evs : List Announcement) (devs post : List AppEvent) :
    (phase2 (devs.foldl step (processAnnouncements evs))).xdg_output_managers.length =
      (devs.foldl step (processAnnouncements evs)).xdg_output_managers.length ∧
    (post.foldl step (phase2 (devs.foldl step
        (processAnnouncements evs)))).xdg_output_managers.length =
      (devs.foldl step (processAnnouncements evs)).xdg_output_managers.length ∧
    xdgCompleteL
      (phase2 (devs.foldl step (processAnnouncements evs))).xdg_output_managers
      (devs.foldl step (processAnnouncements evs)).outputs.length ∧
    xdgCompleteL
      (post.foldl step (phase2 (devs.foldl step
        (processAnnouncements evs)))).xdg_output_managers
      (devs.foldl step (processAnnouncements evs)).outputs.length := by
  have hinv := foldl_step_phase1Inv devs _ (processAnnouncements_phase1Inv evs)
  obtain ⟨hlen, hcomp⟩ := phase2_xdgComplete _ hinv
  refine ⟨hlen, ?_, hcomp, foldl_step_xdgCompleteL post _ _ hcomp⟩
  rw [foldl_step_xdg_managers_length]
  exact hlen

/-- Witness for C2 with one manager and two outputs announced: the manager
record holds one logical-output record per output, position 1 carrying
output_id 1. -/
theorem xdg_output_pairing_witness :
    ∃ mgr, (phase2 (([] : List AppEvent).foldl step
        (processAnnouncements evsFix))).xdg_output_managers[0]? = some mgr ∧
      mgr.outputs.length =
        (([] : List AppEvent).foldl step (processAnnouncements evsFix)).outputs.length ∧
      ∃ info, mgr.outputs[1]? = some info ∧ info.output_id = 1 := by
  obtain ⟨-, -, hcomp, -⟩ := xdg_output_pairing evsFix [] []
  have hm : (phase2 (([] : List AppEvent).foldl step
      (processAnnouncements evsFix))).xdg_output_managers[0]? =
      some ⟨1, [⟨0, "", "", 0, 0, 0, 0⟩, ⟨1, "", "", 0, 0, 0, 0⟩]⟩ := by decide
  obtain ⟨hl, hid⟩ := hcomp 0 _ hm
  exact ⟨_, hm, hl, ⟨⟨1, "", "", 0, 0, 0, 0⟩, rfl, hid 1 _ rfl⟩⟩
